import Mathlib

/-!
Shallow embedding of the Misania document-ingestion pipeline
(`src/services/jsonImportValidator.ts`, `src/services/harvestDataParser.ts`,
`src/services/harvestImportService.ts` and the `HarvestDataImporter`
orchestrator), together with proofs about the validation, extraction,
deduplication and import logic.

JSON values produced by `JSON.parse` (and the JavaScript values flowing
through the pipeline) are modelled by the inductive `JsVal`; JSON numbers
are modelled as integers, which covers every value the claims exercise.
JavaScript exceptions are modelled with `Except String`; external
collaborators (persistence, fetch, clock) are explicit oracle parameters.
-/

set_option maxHeartbeats 1000000

inductive JsVal where
  | null
  | undefined
  | bool (b : Bool)
  | num (n : Int)
  | str (s : String)
  | arr (xs : List JsVal)
  | obj (fields : List (String × JsVal))

mutual

def JsVal.beq : JsVal → JsVal → Bool
  | .null, .null => true
  | .undefined, .undefined => true
  | .bool a, .bool b => a == b
  | .num a, .num b => a == b
  | .str a, .str b => a == b
  | .arr a, .arr b => JsVal.beqL a b
  | .obj a, .obj b => JsVal.beqF a b
  | _, _ => false

def JsVal.beqL : List JsVal → List JsVal → Bool
  | [], [] => true
  | x :: xs, y :: ys => JsVal.beq x y && JsVal.beqL xs ys
  | _, _ => false

def JsVal.beqF : List (String × JsVal) → List (String × JsVal) → Bool
  | [], [] => true
  | (k1, v1) :: xs, (k2, v2) :: ys => k1 == k2 && JsVal.beq v1 v2 && JsVal.beqF xs ys
  | _, _ => false

end

mutual

theorem JsVal.beq_iff : ∀ (a b : JsVal), JsVal.beq a b = true ↔ a = b
  | .null, b => by cases b <;> simp [JsVal.beq]
  | .undefined, b => by cases b <;> simp [JsVal.beq]
  | .bool x, b => by cases b <;> simp [JsVal.beq]
  | .num x, b => by cases b <;> simp [JsVal.beq]
  | .str x, b => by cases b <;> simp [JsVal.beq]
  | .arr xs, b => by
    cases b <;> simp [JsVal.beq]
    exact JsVal.beqL_iff xs _
  | .obj fs, b => by
    cases b <;> simp [JsVal.beq]
    exact JsVal.beqF_iff fs _

theorem JsVal.beqL_iff : ∀ (a b : List JsVal), JsVal.beqL a b = true ↔ a = b
  | [], b => by cases b <;> simp [JsVal.beqL]
  | x :: xs, [] => by simp [JsVal.beqL]
  | x :: xs, y :: ys => by
    simp [JsVal.beqL, JsVal.beq_iff x y, JsVal.beqL_iff xs ys]

theorem JsVal.beqF_iff : ∀ (a b : List (String × JsVal)), JsVal.beqF a b = true ↔ a = b
  | [], b => by cases b <;> simp [JsVal.beqF]
  | x :: xs, [] => by simp [JsVal.beqF]
  | (k1, v1) :: xs, (k2, v2) :: ys => by
    simp [JsVal.beqF, JsVal.beq_iff v1 v2, JsVal.beqF_iff xs ys, and_assoc]

end

instance : DecidableEq JsVal := fun a b =>
  decidable_of_iff (JsVal.beq a b = true) (JsVal.beq_iff a b)

/-- JavaScript truthiness of a value (`NaN` is unrepresentable in JSON). -/
def truthy : JsVal → Bool
  | .null => false
  | .undefined => false
  | .bool b => b
  | .num n => n != 0
  | .str s => s != ""
  | .arr _ => true
  | .obj _ => true

/-- `typeof v === \x27object\x27` (true for objects, arrays and `null`). -/
def isObjectTypeof : JsVal → Bool
  | .null => true
  | .arr _ => true
  | .obj _ => true
  | _ => false

/-- Property access `v[k]` on a value known not to be `null`/`undefined`
(returns `undefined` for absent keys and non-object receivers). -/
def totGet : JsVal → String → JsVal
  | .obj fs, k => match fs.lookup k with
    | some v => v
    | none => .undefined
  | _, _ => .undefined

/-- Property access `v[k]` with the JavaScript `TypeError` on a
`null`/`undefined` receiver (the string is the `Error.message`). -/
def jsGet : JsVal → String → Except String JsVal
  | .null, k => .error ("Cannot read properties of null (reading \x27" ++ k ++ "\x27)")
  | .undefined, k => .error ("Cannot read properties of undefined (reading \x27" ++ k ++ "\x27)")
  | v, k => .ok (totGet v k)

def isJsWhitespace (c : Char) : Bool :=
  c == ' ' || c == '\t' || c == '\n' || c == '\r'

/-- `String.prototype.trim`, implemented over the character list so that it
evaluates by kernel reduction (the library `String.trim` is well-founded). -/
def jsTrim (s : String) : String :=
  String.mk (((s.toList.dropWhile isJsWhitespace).reverse.dropWhile isJsWhitespace).reverse)

/-- `v.trim()`: succeeds on strings, throws a `TypeError` otherwise.
The member name is only used for the error message. -/
def jsTrimE (member : String) : JsVal → Except String String
  | .str s => .ok (jsTrim s)
  | _ => .error (member ++ ".trim is not a function")

/-- JavaScript `a || b` (returns `a` when truthy, else `b`). -/
def jsOr (a b : JsVal) : JsVal := if truthy a then a else b

def getStr : JsVal → Option String
  | .str s => some s
  | _ => none

mutual

/-- JavaScript `String(v)` as used by template-literal interpolation. -/
def jsToString : JsVal → String
  | .null => "null"
  | .undefined => "undefined"
  | .bool true => "true"
  | .bool false => "false"
  | .num n => toString n
  | .str s => s
  | .arr xs => jsToStringElems xs
  | .obj _ => "[object Object]"

def jsToStringElems : List JsVal → String
  | [] => ""
  | [x] => jsToStringElem x
  | x :: y :: xs => jsToStringElem x ++ "," ++ jsToStringElems (y :: xs)

def jsToStringElem : JsVal → String
  | .null => ""
  | .undefined => ""
  | v => jsToString v

end

mutual

/-- `JSON.stringify(v)` (without string escaping, which the inputs in scope
never need). -/
def jsonStringify : JsVal → String
  | .null => "null"
  | .undefined => "undefined"
  | .bool true => "true"
  | .bool false => "false"
  | .num n => toString n
  | .str s => "\"" ++ s ++ "\""
  | .arr xs => "[" ++ jsonStringifyElems xs ++ "]"
  | .obj fs => "\x7b" ++ jsonStringifyFields fs ++ "\x7d"

def jsonStringifyElems : List JsVal → String
  | [] => ""
  | [x] => jsonStringify x
  | x :: y :: xs => jsonStringify x ++ "," ++ jsonStringifyElems (y :: xs)

def jsonStringifyFields : List (String × JsVal) → String
  | [] => ""
  | [(k, v)] => "\"" ++ k ++ "\":" ++ jsonStringify v
  | (k, v) :: f :: fs => "\"" ++ k ++ "\":" ++ jsonStringify v ++ "," ++ jsonStringifyFields (f :: fs)

end

def isUrlAlpha (c : Char) : Bool :=
  ('a' ≤ c && c ≤ 'z') || ('A' ≤ c && c ≤ 'Z')

def isSchemeChar (c : Char) : Bool :=
  isUrlAlpha c || ('0' ≤ c && c ≤ '9') || c = '+' || c = '-' || c = '.'

/-- Split `scheme ":" rest`; `none` when no colon terminates a run of
scheme characters. -/
def splitScheme : List Char → List Char → Option (List Char × List Char)
  | [], _ => none
  | c :: rest, acc =>
    if c = ':' then some (acc.reverse, rest)
    else if isSchemeChar c then splitScheme rest (c :: acc)
    else none

def specialSchemes : List String := ["http", "https", "ws", "wss", "ftp"]

/-- Model of the WHATWG `new URL(s)` constructor restricted to what the
repository feeds it: the string must carry an alphabetic-led scheme
followed by `:`, and the special network schemes additionally require
`//` and a nonempty host. Strings without a colon (`"not-a-url"`) fail,
`"https://example.com/a.pdf"` parses. -/
def urlParses (s : String) : Bool :=
  match splitScheme (jsTrim s).toList [] with
  | none => false
  | some (scheme, rest) =>
    match scheme with
    | [] => false
    | c :: _ =>
      if !isUrlAlpha c then false
      else if specialSchemes.contains (String.mk (scheme.map Char.toLower)) then
        match rest with
        | '/' :: '/' :: h :: _ => h ≠ '/'
        | _ => false
      else true

/-- Model of the loose `new Date(s)` parse used by `isValidDate`
(accepts ISO-like `YYYY-MM-DD...` strings). -/
def dateParseOk (s : String) : Bool :=
  match s.toList with
  | y1 :: y2 :: y3 :: y4 :: '-' :: m1 :: m2 :: '-' :: d1 :: d2 :: _ =>
    [y1, y2, y3, y4, m1, m2, d1, d2].all Char.isDigit
  | _ => false

/-- `JsonImportValidator.isValidDate`: falsy or non-string values are
invalid, otherwise the string must date-parse and have length at least 8. -/
def isValidDate (v : JsVal) : Bool :=
  match v with
  | .str s => if s == "" then false else (dateParseOk s && decide (s.length ≥ 8))
  | _ => false


/-! ## Field Validator (`JsonImportValidator.validateDocument` / `validateLog`) -/

/-- JavaScript `typeof v` rendered as in the source messages. -/
def jsTypeof : JsVal → String
  | .null => "object"
  | .undefined => "undefined"
  | .bool _ => "boolean"
  | .num _ => "number"
  | .str _ => "string"
  | .arr _ => "object"
  | .obj _ => "object"

inductive Sev where
  | error
  | warning
deriving DecidableEq

structure Finding where
  field : String
  message : String
  recommendation : String
  severity : Sev
  context : String
  documentIndex : Option Nat
  logIndex : Option Nat
deriving DecidableEq

/-- A finding attached to a document entry. -/
def docErrF (i : Nat) (fld msg advice ctx : String) : Finding :=
  ⟨fld, msg, advice, .error, ctx, some i, none⟩

def docWarnF (i : Nat) (fld msg advice ctx : String) : Finding :=
  ⟨fld, msg, advice, .warning, ctx, some i, none⟩

/-- A finding attached to a log entry. -/
def logErrF (i : Nat) (fld msg advice ctx : String) : Finding :=
  ⟨fld, msg, advice, .error, ctx, none, some i⟩

def logWarnF (i : Nat) (fld msg advice ctx : String) : Finding :=
  ⟨fld, msg, advice, .warning, ctx, none, some i⟩

/-- A finding on the envelope itself (no entry index). -/
def batchErrF (fld msg advice ctx : String) : Finding :=
  ⟨fld, msg, advice, .error, ctx, none, none⟩

def batchWarnF (fld msg advice ctx : String) : Finding :=
  ⟨fld, msg, advice, .warning, ctx, none, none⟩

/-- The error finding pushed by the outer `catch` of `validateImportJson`. -/
def jsonErrF (msg : String) : Finding :=
  batchErrF "json" ("Erreur de syntaxe JSON : " ++ msg)
    "Vérifiez la syntaxe JSON avec un validateur en ligne. Erreurs courantes : virgules manquantes, guillemets non fermés, accolades déséquilibrées"
    "Parsing JSON"

/-- The `url_doc` if/else chain of `validateDocument` (missing, non-string,
blank after trim, URL-unparseable — first failure wins). -/
def urlDocCheck (doc : JsVal) (i : Nat) (p : String) : Bool × List Finding :=
  let u := totGet doc "url_doc"
  if ¬truthy u then
    (false, [docErrF i "url_doc"
      (p ++ " : champ \"url_doc\" manquant - ce champ est obligatoire pour le téléchargement")
      "Ajoutez l\x27URL de téléchargement : \"url_doc\": \"https://example.com/document.pdf\""
      ("Document à l\x27index " ++ toString i)])
  else
    match u with
    | .str s =>
      if jsTrim s == "" then
        (false, [docErrF i "url_doc"
          (p ++ " : \"url_doc\" ne peut pas être vide")
          "Fournissez une URL valide : \"url_doc\": \"https://example.com/document.pdf\""
          "Valeur vide détectée"])
      else if ¬urlParses s then
        (false, [docErrF i "url_doc"
          (p ++ " : URL invalide \"" ++ s ++ "\"")
          ("Utilisez une URL complète avec protocole : \"https://example.com/file.pdf\" au lieu de \"" ++ s ++ "\"")
          "Format d\x27URL incorrect"])
      else (true, [])
    | _ =>
      (false, [docErrF i "url_doc"
        (p ++ " : \"url_doc\" doit être une chaîne de caractères, pas " ++ jsTypeof u)
        ("Changez en chaîne : \"url_doc\": \"https://...\" au lieu de \"url_doc\": " ++ jsonStringify u)
        "Type de données incorrect"])

/-- `!v || v.trim() === \x27\x27`: `some true` means the warning fires,
`some false` means it does not, `none` means `.trim()` threw (truthy
non-string value). -/
def softStrCheck (v : JsVal) : Option Bool :=
  if ¬truthy v then some true
  else match v with
    | .str s => some (jsTrim s == "")
    | _ => none

/-- Outcome of `validateDocument`: its boolean result, the findings it pushed,
and—when a `.trim()` call on a truthy non-string optional field threw—the
escaping exception's message. Findings pushed before the throw are kept,
matching the shared mutable arrays of the source. -/
structure DocCheck where
  valid : Bool
  errs : List Finding
  warns : List Finding
  thrown : Option String
deriving DecidableEq

def validateDocument (doc : JsVal) (i : Nat) (year : Int) : DocCheck :=
  let p := "Document " ++ toString (i + 1)
  if ¬(truthy doc && isObjectTypeof doc) then
    ⟨false,
     [docErrF i "document" (p ++ " : structure invalide - doit être un objet JSON")
       "Remplacez par un objet : \x7b\"url_doc\": \"https://...\", \"document_name\": \"...\"\x7d"
       ("Position dans le tableau : index " ++ toString i)],
     [], none⟩
  else
    let (v0, uerrs) := urlDocCheck doc i p
    match softStrCheck (totGet doc "document_name") with
    | none => ⟨v0, uerrs, [], some "doc.document_name.trim is not a function"⟩
    | some w1 =>
      let ws1 := if w1 then
        [docWarnF i "document_name"
          (p ++ " : \"document_name\" manquant - le nom sera généré automatiquement")
          "Ajoutez un nom descriptif : \"document_name\": \"Rapport annuel 2024\""
          "Métadonnée optionnelle"] else []
      match softStrCheck (totGet doc "filename") with
      | none => ⟨v0, uerrs, ws1, some "doc.filename.trim is not a function"⟩
      | some w2 =>
        let ws2 := if w2 then
          [docWarnF i "filename"
            (p ++ " : \"filename\" manquant - sera extrait de l\x27URL")
            "Spécifiez le nom de fichier : \"filename\": \"rapport_2024.pdf\""
            "Nom de fichier automatique"] else []
        let de := totGet doc "date_edition"
        let ws3 := if truthy de && ¬isValidDate de then
          [docWarnF i "date_edition"
            (p ++ " : format de date invalide \"" ++ jsToString de ++ "\"")
            "Utilisez le format ISO : \"date_edition\": \"2024-01-15\" ou \"2024-01-15T10:30:00Z\""
            "Format de date incorrect"] else []
        let an := totGet doc "annee"
        let anBad := match an with
          | .num n => decide (n < 1900) || decide (n > year + 1)
          | _ => true
        let ws4 := if truthy an && anBad then
          [docWarnF i "annee"
            (p ++ " : année invalide \"" ++ jsToString an ++ "\"")
            ("Utilisez une année valide : \"annee\": " ++ toString year)
            "Valeur numérique incorrecte"] else []
        ⟨v0, uerrs, ws1 ++ ws2 ++ ws3 ++ ws4, none⟩

/-- `validateLog` (total: none of its member calls can throw):
returns its boolean result and the findings it pushed. -/
def validateLog (lg : JsVal) (i : Nat) : Bool × List Finding × List Finding :=
  let p := "Log " ++ toString (i + 1)
  if ¬(truthy lg && isObjectTypeof lg) then
    (false,
     [logErrF i "log" (p ++ " : structure invalide - doit être un objet JSON")
       "Remplacez par un objet : \x7b\"level\": \"error\", \"message\": \"Description de l\x27erreur\"\x7d"
       ("Position dans le tableau : index " ++ toString i)],
     [])
  else
    let lv := totGet lg "level"
    let w1 :=
      if ¬truthy lv then
        [logWarnF i "level"
          (p ++ " : \"level\" manquant - sera défini par défaut à \"info\"")
          "Spécifiez le niveau : \"level\": \"error\", \"warning\" ou \"info\""
          "Niveau de log par défaut"]
      else if ¬(lv == .str "error" || lv == .str "warning" || lv == .str "info") then
        [logWarnF i "level"
          (p ++ " : niveau \"" ++ jsToString lv ++ "\" non reconnu")
          "Utilisez un niveau valide : \"level\": \"error\", \"warning\" ou \"info\""
          "Niveau de log invalide"]
      else []
    let mv := totGet lg "message"
    let w2 :=
      if ¬truthy mv then
        [logWarnF i "message"
          (p ++ " : \"message\" manquant - le log sera créé avec un message par défaut")
          "Ajoutez une description : \"message\": \"Description détaillée de l\x27incident\""
          "Message de log manquant"]
      else match mv with
        | .str _ => []
        | _ =>
          [logWarnF i "message"
            (p ++ " : \"message\" doit être une chaîne de caractères")
            "Changez en chaîne : \"message\": \"Votre message ici\""
            "Type de message incorrect"]
    let tv := totGet lg "timestamp"
    let w3 := if truthy tv && ¬isValidDate tv then
      [logWarnF i "timestamp"
        (p ++ " : format de timestamp invalide \"" ++ jsToString tv ++ "\"")
        "Utilisez le format ISO : \"timestamp\": \"2024-01-15T10:30:00Z\""
        "Format de timestamp incorrect"] else []
    let uv := totGet lg "url"
    let w4 := match uv with
      | .str s =>
        if s != "" && jsTrim s != "" && ¬urlParses s then
          [logWarnF i "url"
            (p ++ " : URL invalide \"" ++ s ++ "\"")
            "Utilisez une URL complète : \"url\": \"https://example.com/page\""
            "Format d\x27URL incorrect"] else []
      | _ => []
    (true, [], w1 ++ w2 ++ w3 ++ w4)

/-! ## Batch Validator (`JsonImportValidator.validateImportJson`) -/

/-- Insert index `i` under key `u`, preserving first-insertion order
(the `Map<string, number[]>` of the duplicate scan). -/
def addUrlIdx : List (String × List Nat) → String → Nat → List (String × List Nat)
  | [], u, i => [(u, [i])]
  | (k, js) :: rest, u, i =>
    if k == u then (k, js ++ [i]) :: rest
    else (k, js) :: addUrlIdx rest u i

/-- The duplicate-URL scan over the whole `documents` array. -/
def collectUrls : List JsVal → Nat → List (String × List Nat) → List (String × List Nat)
  | [], _, m => m
  | d :: ds, i, m =>
    let m2 :=
      if truthy d then
        match totGet d "url_doc" with
        | .str s =>
          if s != "" && jsTrim s != "" then addUrlIdx m (jsTrim s) i else m
        | _ => m
      else m
    collectUrls ds (i + 1) m2

def dupErrorsOf (docs : List JsVal) : List Finding :=
  (collectUrls docs 0 []).filterMap fun kv =>
    if kv.2.length > 1 then
      some (batchErrF "url_doc"
        ("URL dupliquée \"" ++ kv.1 ++ "\" trouvée dans les documents "
          ++ String.intercalate ", " (kv.2.map fun j => toString (j + 1)))
        "Supprimez les doublons ou modifiez les URL pour qu\x27elles soient uniques. Gardez seulement le document le plus récent ou le plus complet."
        ("Documents en doublon : positions " ++ String.intercalate ", " (kv.2.map toString)))
    else none

/-- The per-document `forEach`: accumulated errors, warnings, valid count and
the first escaping exception (which aborts the iteration). -/
def goDocs (year : Int) : List JsVal → Nat → List Finding × List Finding × Nat × Option String
  | [], _ => ([], [], 0, none)
  | d :: ds, i =>
    let c := validateDocument d i year
    match c.thrown with
    | some m => (c.errs, c.warns, 0, some m)
    | none =>
      let (es, ws, v, th) := goDocs year ds (i + 1)
      (c.errs ++ es, c.warns ++ ws, (if c.valid then 1 else 0) + v, th)

/-- The per-log `forEach` (total). -/
def goLogs : List JsVal → Nat → List Finding × List Finding × Nat
  | [], _ => ([], [], 0)
  | l :: ls, i =>
    let r := validateLog l i
    let rest := goLogs ls (i + 1)
    (r.2.1 ++ rest.1, r.2.2 ++ rest.2.1, (if r.1 then 1 else 0) + rest.2.2)

structure Summary where
  totalDocuments : Nat
  validDocuments : Nat
  totalLogs : Nat
  validLogs : Nat
deriving DecidableEq

structure ValidationResult where
  isValid : Bool
  errors : List Finding
  warnings : List Finding
  summary : Summary
deriving DecidableEq

def docsMissingErr : Finding :=
  batchErrF "documents"
    "Tableau \"documents\" manquant : ce champ est obligatoire pour l\x27importation"
    "Ajoutez le tableau documents : \"documents\": [\x7b\"url_doc\": \"https://example.com/file.pdf\", \"document_name\": \"Mon document\"\x7d]"
    "Structure principale"

def docsTypeErr : Finding :=
  batchErrF "documents"
    "Type incorrect : \"documents\" doit être un tableau, pas un objet ou une chaîne"
    "Changez en tableau : \"documents\": [...] au lieu de \"documents\": \"...\" ou \"documents\": \x7b...\x7d"
    "Type de données"

def emptyDocsWarn : Finding :=
  batchWarnF "documents"
    "Tableau \"documents\" vide : aucun document ne sera importé"
    "Ajoutez au moins un document avec un champ \"url_doc\" valide"
    "Contenu du tableau"

def logsMissingWarn : Finding :=
  batchWarnF "logs"
    "Tableau \"logs\" manquant : les logs d\x27incidents ne seront pas importés"
    "Ajoutez le tableau logs (optionnel) : \"logs\": [\x7b\"level\": \"info\", \"message\": \"Log message\"\x7d]"
    "Structure optionnelle"

def logsTypeErr : Finding :=
  batchErrF "logs"
    "Type incorrect : \"logs\" doit être un tableau"
    "Changez en tableau : \"logs\": [...] au lieu de \"logs\": \"...\" ou \"logs\": \x7b...\x7d"
    "Type de données"

def rootErr : Finding :=
  batchErrF "root"
    "Structure JSON invalide : le fichier doit contenir un objet principal"
    "Assurez-vous que le fichier commence par \x7b et se termine par \x7d. Exemple : \x7b\"documents\": [], \"logs\": []\x7d"
    "Racine du fichier JSON"

def bigWarnF (n : Nat) : Finding :=
  batchWarnF "documents"
    ("Nombre élevé de documents (" ++ toString n ++ ") : l\x27importation peut prendre du temps")
    "Considérez diviser l\x27importation en plusieurs fichiers plus petits (max 500 documents par fichier)"
    "Performance"

/-- `JsonImportValidator.validateImportJson`. The parameter is the outcome of
`JSON.parse(jsonContent)` (`Except.error` carries the parse error message);
`year` is `new Date().getFullYear()`. -/
def validateImportJson (parsed : Except String JsVal) (year : Int) : ValidationResult :=
  match parsed with
  | .error m =>
    { isValid := false, errors := [jsonErrF m], warnings := [], summary := ⟨0, 0, 0, 0⟩ }
  | .ok data =>
    if ¬(truthy data && isObjectTypeof data) then
      { isValid := false, errors := [rootErr], warnings := [], summary := ⟨0, 0, 0, 0⟩ }
    else
      let docsV := totGet data "documents"
      let docSec : List Finding × List Finding × Nat × Nat × Option String :=
        if ¬truthy docsV then ([docsMissingErr], [], 0, 0, none)
        else match docsV with
          | .arr docs =>
            let ew := if docs.length == 0 then [emptyDocsWarn] else []
            let dups := dupErrorsOf docs
            let r := goDocs year docs 0
            (dups ++ r.1, ew ++ r.2.1, docs.length, r.2.2.1, r.2.2.2)
          | _ => ([docsTypeErr], [], 0, 0, none)
      match docSec with
      | (des, dws, td, vd, some m) =>
        let errs := des ++ [jsonErrF m]
        { isValid := errs.isEmpty, errors := errs, warnings := dws, summary := ⟨td, vd, 0, 0⟩ }
      | (des, dws, td, vd, none) =>
        let logsV := totGet data "logs"
        let logSec : List Finding × List Finding × Nat × Nat :=
          if ¬truthy logsV then ([], [logsMissingWarn], 0, 0)
          else match logsV with
            | .arr ls =>
              let r := goLogs ls 0
              (r.1, r.2.1, ls.length, r.2.2)
            | _ => ([logsTypeErr], [], 0, 0)
        let bw := if td > 1000 then [bigWarnF td] else []
        let errs := des ++ logSec.1
        { isValid := errs.isEmpty, errors := errs,
          warnings := dws ++ logSec.2.1 ++ bw,
          summary := ⟨td, vd, logSec.2.2.1, logSec.2.2.2⟩ }


/-! ## Deduplicator + Extractor (`JsonImportValidator.extractValidData`) -/

structure ExtractResult where
  documents : List JsVal
  logs : List JsVal
  obstacles_globaux : List String
  recommandations : Option String
deriving DecidableEq

def emptyExtract : ExtractResult := ⟨[], [], [], none⟩

/-- First filter of the documents chain:
`doc && typeof doc === \x27object\x27 && doc.url_doc`. -/
def eligibleDoc (d : JsVal) : Bool :=
  truthy d && isObjectTypeof d && truthy (totGet d "url_doc")

/-- Second (stateful) filter: drop entries whose trimmed `url_doc` has
already been seen; `doc.url_doc.trim()` throws on truthy non-strings. -/
def dedupE : List JsVal → List String → Except String (List JsVal)
  | [], _ => .ok []
  | d :: rest, seen =>
    match jsTrimE "doc.url_doc" (totGet d "url_doc") with
    | .error m => .error m
    | .ok u =>
      if seen.contains u then dedupE rest seen
      else
        match dedupE rest (u :: seen) with
        | .error m => .error m
        | .ok ks => .ok (d :: ks)

/-- The trimmed `url_doc` of an entry, totalized with `""` on non-strings
(it agrees with the JavaScript `doc.url_doc.trim()` whenever `url_doc` is a
string, the only case in which that call returns). -/
def trimUrl (d : JsVal) : String :=
  match totGet d "url_doc" with
  | .str s => jsTrim s
  | _ => ""

/-- Pure version of `dedupE`, defined for reasoning; agrees with `dedupE`
whenever every `url_doc` in the list is a string. -/
def dedupP : List JsVal → List String → List JsVal
  | [], _ => []
  | d :: rest, seen =>
    if seen.contains (trimUrl d) then dedupP rest seen
    else d :: dedupP rest (trimUrl d :: seen)

/-- The `.map` of the documents chain: every optional field defaulted,
`url_doc` kept untrimmed. -/
def normalizeDoc (year : Int) (d : JsVal) : JsVal :=
  .obj [("url_doc", totGet d "url_doc"),
        ("document_name", jsOr (totGet d "document_name") (.str "")),
        ("filename", jsOr (totGet d "filename") (.str "")),
        ("date_edition", jsOr (totGet d "date_edition") (.str "")),
        ("auteurs", jsOr (totGet d "auteurs") (.str "")),
        ("langue", jsOr (totGet d "langue") (.str "")),
        ("resume", jsOr (totGet d "resume") (.str "")),
        ("statut", jsOr (totGet d "statut") (.str "")),
        ("issue_number", jsOr (totGet d "issue_number") (.str "")),
        ("annee", jsOr (totGet d "annee") (.num year)),
        ("format", jsOr (totGet d "format") (.str "")),
        ("type_document", jsOr (totGet d "type_document") (.str "")),
        ("content_text", jsOr (totGet d "content_text") (.str "")),
        ("pdf_pattern_verified", .bool (truthy (totGet d "pdf_pattern_verified"))),
        ("notes", jsOr (totGet d "notes") (.str "")),
        ("obstacles", jsOr (totGet d "obstacles") (.str ""))]

/-- The logs chain of `extractValidData`: keep objects, default every field
(`now` is `new Date().toISOString()`). -/
def normalizeLog (now : String) (lg : JsVal) : JsVal :=
  .obj [("level", jsOr (totGet lg "level") (.str "info")),
        ("message", jsOr (totGet lg "message") (.str "Log importé sans message")),
        ("timestamp", jsOr (totGet lg "timestamp") (.str now)),
        ("url", jsOr (totGet lg "url") (.str "")),
        ("details", jsOr (totGet lg "details") (.obj []))]

/-- The documents chain of the `try` block (filter, dedup, normalize). -/
def docsSection (docsV : JsVal) (year : Int) : Except String (List JsVal) :=
  match docsV with
  | .arr docs =>
    match dedupE (docs.filter eligibleDoc) [] with
    | .error m => .error m
    | .ok kept => .ok (kept.map (normalizeDoc year))
  | _ => .ok []

/-- The logs chain of the `try` block. -/
def logsSection (logsV : JsVal) (now : String) : List JsVal :=
  match logsV with
  | .arr ls => (ls.filter fun l => truthy l && isObjectTypeof l).map (normalizeLog now)
  | _ => []

/-- The `obstacles-globaux` chain of the `try` block. -/
def obsSection (obsV : JsVal) : List String :=
  match obsV with
  | .arr os => (((os.filterMap getStr).map jsTrim).filter fun s => s.length > 0)
  | _ => []

/-- The `recommandations` normalization of the `try` block. -/
def recsSection (recV : JsVal) : Option String :=
  match recV with
  | .str s => if jsTrim s != "" then some (jsTrim s) else none
  | _ => none

/-- The `try` block of `extractValidData` (everything between `JSON.parse`
and the `return`); an `Except.error` is a JavaScript exception reaching the
`catch`. -/
def extractBody (data : JsVal) (now : String) (year : Int) : Except String ExtractResult :=
  match jsGet data "documents" with
  | .error m => .error m
  | .ok docsV =>
    match docsSection docsV year with
    | .error m => .error m
    | .ok documents =>
      match jsGet data "logs" with
      | .error m => .error m
      | .ok logsV =>
        match jsGet data "obstacles-globaux" with
        | .error m => .error m
        | .ok obsV =>
          match jsGet data "recommandations" with
          | .error m => .error m
          | .ok recV =>
            .ok ⟨documents, logsSection logsV now, obsSection obsV, recsSection recV⟩

/-- `JsonImportValidator.extractValidData`. The first parameter is the
outcome of `JSON.parse(jsonContent)`; `now`/`year` are the clock readings
used by the defaulting of `timestamp` and `annee`. -/
def extractValidData (parsed : Except String JsVal) (now : String) (year : Int) : ExtractResult :=
  match parsed with
  | .error _ => emptyExtract
  | .ok data =>
    match extractBody data now year with
    | .ok r => r
    | .error _ => emptyExtract


/-! ## Parser (`HarvestDataParser`) -/

structure ParsedDocument where
  url_doc : String
  document_name : JsVal
  filename : JsVal
  date_edition : JsVal
  auteurs : JsVal
  langue : JsVal
  resume : JsVal
  statut : JsVal
  issue_number : JsVal
  annee : Int
  format : JsVal
  type_document : JsVal
  contient_texte : JsVal
  pattern_verified : Bool
  notes : JsVal
  obstacles : JsVal
  source_page : JsVal
deriving DecidableEq

structure ParsedLog where
  level : JsVal
  message : JsVal
  details : JsVal
deriving DecidableEq

structure ParsedHarvestData where
  documents : List ParsedDocument
  obstacles_globaux : List String
  recommandations : Option String
  logs : List ParsedLog
deriving DecidableEq

structure ParseResult where
  success : Bool
  data : Option ParsedHarvestData
  error : Option String
  warnings : List String
deriving DecidableEq

/-- `parseInt(s, 10)`: optional sign then leading decimal digits,
`none` for `NaN`. -/
def parseIntJs (s : String) : Option Int :=
  let cs := jsTrim s |>.toList
  let signAndDigits : Int × List Char :=
    match cs with
    | '-' :: r => (-1, r)
    | '+' :: r => (1, r)
    | r => (1, r)
  let ds := signAndDigits.2.takeWhile Char.isDigit
  if ds.isEmpty then none
  else some (signAndDigits.1 * Int.ofNat (ds.foldl (fun a c => a * 10 + (c.toNat - '0'.toNat)) 0))

/-- `HarvestDataParser.parseYear`: numbers and numeric strings inside
`1900 .. currentYear+1`, else `null`. -/
def parseYear (v : JsVal) (year : Int) : Option Int :=
  match v with
  | .num n => if 1900 ≤ n ∧ n ≤ year + 1 then some n else none
  | .str s =>
    match parseIntJs s with
    | some n => if 1900 ≤ n ∧ n ≤ year + 1 then some n else none
    | none => none
  | _ => none

/-- The `ParsedDocument` built by `parseDocument` for a kept entry. -/
def parsedOf (doc : JsVal) (year : Int) (s : String) : ParsedDocument :=
  { url_doc := jsTrim s,
    document_name := jsOr (totGet doc "document_name") (.str ""),
    filename := jsOr (totGet doc "filename") (.str ""),
    date_edition := jsOr (totGet doc "date_edition") (.str ""),
    auteurs := jsOr (totGet doc "auteurs") (.str ""),
    langue := jsOr (totGet doc "langue") (.str ""),
    resume := jsOr (totGet doc "resume") (.str ""),
    statut := jsOr (totGet doc "statut") (.str ""),
    issue_number := jsOr (totGet doc "issue_number") .null,
    annee := (parseYear (totGet doc "annee") year).getD 0,
    format := jsOr (totGet doc "format") (.str ""),
    type_document := jsOr (totGet doc "type_document") (.str ""),
    contient_texte := jsOr (totGet doc "contient_texte") (.str ""),
    pattern_verified := truthy (totGet doc "pattern_verified"),
    notes := jsOr (totGet doc "notes") (.str ""),
    obstacles := jsOr (totGet doc "obstacles") .null,
    source_page := jsOr (totGet doc "source_page") (.str "") }

/-- `HarvestDataParser.parseDocument`: throws `"Document invalide"` on a
non-object, returns `none` (entry silently excluded) when `url_doc` is
missing, non-string or blank after trim. -/
def parseDocument (doc : JsVal) (year : Int) : Except String (Option ParsedDocument) :=
  if ¬(truthy doc && isObjectTypeof doc) then .error "Document invalide"
  else
    match totGet doc "url_doc" with
    | .str s =>
      if s == "" then .ok none
      else if jsTrim s == "" then .ok none
      else .ok (some (parsedOf doc year s))
    | _ => .ok none

/-- The documents `forEach` of `parseStructuredData`: a throwing
`parseDocument` is caught per entry and turned into a warning. -/
def parseDocsLoop (year : Int) : List JsVal → Nat → List ParsedDocument × List String
  | [], _ => ([], [])
  | d :: ds, i =>
    let rest := parseDocsLoop year ds (i + 1)
    match parseDocument d year with
    | .ok (some p) => (p :: rest.1, rest.2)
    | .ok none => rest
    | .error m => (rest.1, ("Document " ++ toString (i + 1) ++ ": " ++ m) :: rest.2)

/-- The logs `forEach` of `parseStructuredData`: the unguarded `log.message`
access throws on a `null` entry, escaping to the outer `catch`. -/
def parseLogsLoop : List JsVal → Except String (List ParsedLog)
  | [] => .ok []
  | l :: ls => do
    let mv ← jsGet l "message"
    if truthy mv then do
      let rest ← parseLogsLoop ls
      pure ({ level := jsOr (totGet l "level") (.str "info"),
              message := mv,
              details := jsOr (totGet l "details") (.obj []) } :: rest)
    else parseLogsLoop ls

/-- The documents section of `parseStructuredData`. -/
def pDocsSection (docsV : JsVal) (year : Int) : List ParsedDocument × List String :=
  if truthy docsV then
    match docsV with
    | .arr ds => parseDocsLoop year ds 0
    | _ => ([], ["Aucun tableau \"documents\" trouvé dans les données"])
  else ([], ["Aucun tableau \"documents\" trouvé dans les données"])

/-- The `obstacles-globaux` section of `parseStructuredData`. -/
def pObsSection (obsV : JsVal) : List String :=
  if truthy obsV then
    match obsV with
    | .arr os => (((os.filterMap getStr).map jsTrim).filter fun s => s.length > 0)
    | _ => []
  else []

/-- The `recommandations` section of `parseStructuredData`. -/
def pRecsSection (recV : JsVal) : Option String :=
  if truthy recV then
    match recV with
    | .str s => some (jsTrim s)
    | _ => none
  else none

/-- The logs section of `parseStructuredData` (its only throwing part). -/
def pLogsSection (logsV : JsVal) : Except String (List ParsedLog) :=
  if truthy logsV then
    match logsV with
    | .arr ls => parseLogsLoop ls
    | _ => .ok []
  else .ok []

/-- `HarvestDataParser.parseStructuredData` (caller guarantees the argument
is a truthy object): a throw inside the logs loop is caught and discards
the parsed data, keeping the accumulated warnings. -/
def parseStructuredData (d : JsVal) (year : Int) : ParseResult :=
  let docSec := pDocsSection (totGet d "documents") year
  match pLogsSection (totGet d "logs") with
  | .error m => { success := false, data := none, error := some m, warnings := docSec.2 }
  | .ok plogs =>
    { success := true,
      data := some ⟨docSec.1, pObsSection (totGet d "obstacles-globaux"),
        pRecsSection (totGet d "recommandations"), plogs⟩,
      error := none,
      warnings := docSec.2 }

/-- `HarvestDataParser.parseOpenAIResponse`. On success the parse-time
warnings are discarded (the source returns its own, empty, `warnings`). -/
def parseOpenAIResponse (d : JsVal) (year : Int) : ParseResult :=
  if ¬(truthy d && isObjectTypeof d) then
    { success := false, data := none,
      error := some "Données de moissonnage invalides ou manquantes", warnings := [] }
  else
    let r := parseStructuredData d year
    if ¬r.success then r
    else { success := true, data := r.data, error := none, warnings := [] }

structure ParsedValidation where
  isValid : Bool
  errors : List String
deriving DecidableEq

/-- `HarvestDataParser.validateParsedData`: an empty parsed-document list is
an error, and each kept document must have a URL-parseable `url_doc`. -/
def validateParsedData (data : ParsedHarvestData) : ParsedValidation :=
  let e1 : List String :=
    if data.documents.isEmpty then ["Aucun document valide trouvé"] else []
  let e2 : List String :=
    (data.documents.enum.filterMap fun ip =>
      if urlParses ip.2.url_doc then none
      else some ("Document " ++ toString (ip.1 + 1) ++ ": URL invalide (" ++ ip.2.url_doc ++ ")"))
  let errs := e1 ++ e2
  { isValid := errs.isEmpty, errors := errs }


/-! ## Ingestion Orchestrator (`HarvestDataImporter.importHarvestData`) -/

inductive IPhase where
  | parsing
  | documents
  | site_update
  | logs
  | completed
  | error
deriving DecidableEq

structure IProgress where
  phase : IPhase
  message : String
  progress : ℚ
  documentsProcessed : Nat
  totalDocuments : Nat
  errors : List String
  warnings : List String
deriving DecidableEq

structure IResult where
  success : Bool
  documentsImported : Nat
  obstaclesUpdated : Bool
  recommandationsUpdated : Bool
  logsImported : Nat
  errors : List String
  warnings : List String
deriving DecidableEq

/-- Collaborator calls of the orchestrator, by position in the run:
`docPersist i` is `HarvestResultService.createResult` for the document at
loop index `i`, `logPersist j` is `HarvestLogService.createLog` for the log
at index `j`; the `Except.error` payload is the thrown `Error.message`. -/
structure ImportOracles where
  docPersist : Nat → Except String Unit
  siteUpdate : Except String Unit
  logPersist : Nat → Except String Unit
  finalLog : Except String Unit

/-- Per-document loop of phase 2: returns (documents imported, errors,
progress snapshots). A blank `url_doc` is skipped, a persistence failure
appends an error and continues, a success emits a progress snapshot. -/
def importDocsLoop (o : ImportOracles) (warns : List String) (len : Nat) :
    List ParsedDocument → Nat → Nat × List String × List IProgress
  | [], _ => (0, [], [])
  | d :: ds, i =>
    let rest := importDocsLoop o warns len ds (i + 1)
    if d.url_doc == "" || jsTrim d.url_doc == "" then rest
    else
      match o.docPersist i with
      | .ok _ =>
        (rest.1 + 1, rest.2.1,
         ⟨.documents, "Import document: " ++ jsToString d.document_name,
          30 + (((i : ℚ) + 1) / (len : ℚ)) * 40, i + 1, len, [], warns⟩ :: rest.2.2)
      | .error m =>
        let nm := jsToString (jsOr d.document_name (jsOr d.filename
          (jsOr (.str d.url_doc) (.str "Document inconnu"))))
        (rest.1, ("Document " ++ toString (i + 1) ++ " (" ++ nm ++ "): " ++ m) :: rest.2.1,
         rest.2.2)

/-- Per-log loop of phase 4: failures are swallowed, successes counted. -/
def importLogsLoop (o : ImportOracles) : List ParsedLog → Nat → Nat
  | [], _ => 0
  | _ :: ls, j =>
    (match o.logPersist j with | .ok _ => 1 | .error _ => 0) + importLogsLoop o ls (j + 1)

/-- `HarvestDataImporter.importHarvestData`: `data` is `harvestResult.data`
(already-parsed JSON from the store); returns the `ImportResult` and the
sequence of progress snapshots passed to the registered callback. -/
def importHarvestData (data : JsVal) (year : Int) (o : ImportOracles) :
    IResult × List IProgress :=
  let p0 : IProgress :=
    ⟨.parsing, "Analyse des données de moissonnage...", 10, 0, 0, [], []⟩
  let pr := parseOpenAIResponse data year
  match pr.data, pr.success with
  | some pd, true =>
    let warns := pr.warnings
    let v := validateParsedData pd
    if ¬v.isValid then
      let errs := v.errors
      let pe : IProgress :=
        ⟨.error, "Validation échouée: " ++ (errs.headI),
         0, 0, pd.documents.length, errs, warns⟩
      ({ success := false, documentsImported := 0, obstaclesUpdated := false,
         recommandationsUpdated := false, logsImported := 0,
         errors := errs, warnings := warns }, [p0, pe])
    else
      let len := pd.documents.length
      let pDocs : IProgress := ⟨.documents, "Import des documents...", 30, 0, len, [], warns⟩
      let loop := importDocsLoop o warns len pd.documents 0
      let imported := loop.1
      let docErrs := loop.2.1
      let pSite : IProgress :=
        ⟨.site_update, "Mise à jour des informations du site...", 75, len, len, [], warns⟩
      let obstaclesUpdated := decide (pd.obstacles_globaux.length > 0)
      let recommandationsUpdated :=
        match pd.recommandations with
        | some s => s != ""
        | none => false
      let siteErrs :=
        if obstaclesUpdated || recommandationsUpdated then
          match o.siteUpdate with
          | .ok _ => []
          | .error m => ["Erreur mise à jour site: " ++ m]
        else []
      let pLogs : IProgress := ⟨.logs, "Import des logs...", 90, len, len, [], warns⟩
      let logsImported := importLogsLoop o pd.logs 0
      let errsFinal := docErrs ++ siteErrs
      let pDone : IProgress :=
        ⟨.completed, "Import terminé: " ++ toString imported ++ " documents importés",
         100, len, len, errsFinal, warns⟩
      ({ success := errsFinal.isEmpty || decide (imported > 0),
         documentsImported := imported,
         obstaclesUpdated := obstaclesUpdated,
         recommandationsUpdated := recommandationsUpdated,
         logsImported := logsImported,
         errors := errsFinal, warnings := warns },
       [p0, pDocs] ++ loop.2.2 ++ [pSite, pLogs, pDone])
  | _, _ =>
    let errs := [pr.error.getD "Erreur de parsing"]
    let pe : IProgress :=
      ⟨.error, "Erreur parsing: " ++ (pr.error.getD "undefined"), 0, 0, 0, errs, pr.warnings⟩
    ({ success := false, documentsImported := 0, obstaclesUpdated := false,
       recommandationsUpdated := false, logsImported := 0,
       errors := errs, warnings := [] }, [p0, pe])

/-- An oracle assignment under which every collaborator call succeeds. -/
def allOkOracles : ImportOracles :=
  ⟨fun _ => .ok (), .ok (), fun _ => .ok (), .ok ()⟩

def scenarioDoc (u : String) : JsVal := .obj [("url_doc", .str u)]

/-- The three-document batch of the partial-success scenario. -/
def scenarioData : JsVal :=
  .obj [("documents", .arr [scenarioDoc "https://ex.com/a.pdf",
                            scenarioDoc "https://ex.com/b.pdf",
                            scenarioDoc "https://ex.com/c.pdf"])]

/-- Oracles under which only the second document's persistence call fails. -/
def scenarioOracles : ImportOracles :=
  ⟨fun i => if i == 1 then .error "Échec insertion" else .ok (),
   .ok (), fun _ => .ok (), .ok ()⟩


/-! ## JSON-upload import service (`HarvestImportService.importHarvestResults`) -/

inductive HPhase where
  | validation
  | directory
  | downloading
  | saving
  | completed
  | error
deriving DecidableEq

structure HProgress where
  phase : HPhase
  message : String
  progress : ℚ
  documentsProcessed : Nat
  totalDocuments : Nat
  errors : List String
  warnings : List String
deriving DecidableEq

structure HResult where
  success : Bool
  documentsImported : Nat
  documentsWithErrors : Nat
  logsImported : Nat
  localPath : String
  errors : List String
deriving DecidableEq

/-- Outcome of the `HEAD` connectivity probe for one document. -/
inductive FetchOutcome where
  | ok
  | httpError (status : Nat) (statusText : String)
  | netError (msg : String)
deriving DecidableEq

structure HOracles where
  fetchHead : Nat → FetchOutcome
  createResult : Except String Unit
  logPersist : Nat → Except String Unit
  siteUpdate : Except String Unit
  finalLog : Except String Unit

def sanitizeChar (c : Char) : Char :=
  if isUrlAlpha c || ('0' ≤ c && c ≤ '9') then c else '_'

/-- `dataSource.name.replace(/[^a-zA-Z0-9]/g, \x27_\x27)`. -/
def sanitizeName (s : String) : String :=
  String.mk (s.toList.map sanitizeChar)

/-- Phase-3 download loop: (successCount, errorCount, progress snapshots).
The per-document metadata assembled for persistence is elided: it is passed
only to the opaque persistence collaborator and never observed again. -/
def hDocsLoop (o : HOracles) (len : Nat) : List JsVal → Nat → Nat × Nat × List HProgress
  | [], _ => (0, 0, [])
  | d :: ds, i =>
    let rest := hDocsLoop o len ds (i + 1)
    let ev : HProgress :=
      ⟨.downloading,
       "Téléchargement: " ++ jsToString (jsOr (totGet d "document_name")
         (jsOr (totGet d "filename") (.str ("Document " ++ toString (i + 1))))),
       30 + ((i : ℚ) / (len : ℚ)) * 50, i, len, [], []⟩
    match totGet d "url_doc" with
    | .str s =>
      if s == "" then (rest.1, rest.2.1 + 1, ev :: rest.2.2)
      else if ¬urlParses s then (rest.1, rest.2.1 + 1, ev :: rest.2.2)
      else
        match o.fetchHead i with
        | .ok => (rest.1 + 1, rest.2.1, ev :: rest.2.2)
        | .httpError _ _ => (rest.1, rest.2.1 + 1, ev :: rest.2.2)
        | .netError _ => (rest.1, rest.2.1 + 1, ev :: rest.2.2)
    | _ => (rest.1, rest.2.1 + 1, ev :: rest.2.2)

/-- Per-log persistence loop (failures swallowed). -/
def hLogsLoop (o : HOracles) : List JsVal → Nat → Nat
  | [], _ => 0
  | _ :: ls, j =>
    (match o.logPersist j with | .ok _ => 1 | .error _ => 0) + hLogsLoop o ls (j + 1)

/-- `HarvestImportService.importHarvestResults`: `parsed` is the outcome of
`JSON.parse(jsonContent)`, `sourceName` is `dataSource.name`, `now`/`year`
are the clock readings, and `o` supplies every collaborator outcome. -/
def importHarvestResults (parsed : Except String JsVal) (sourceName now : String)
    (year : Int) (o : HOracles) : HResult × List HProgress :=
  let p1 : HProgress := ⟨.validation, "Validation du fichier JSON...", 10, 0, 0, [], []⟩
  let v := validateImportJson parsed year
  if ¬v.isValid then
    let errs := v.errors.map Finding.message
    let pe : HProgress :=
      ⟨.error, "Erreurs de validation détectées", 0, 0, 0, errs, v.warnings.map Finding.message⟩
    ({ success := false, documentsImported := 0, documentsWithErrors := 0,
       logsImported := 0, localPath := "", errors := errs }, [p1, pe])
  else
    let ex := extractValidData parsed now year
    if ex.documents.length == 0 then
      ({ success := false, documentsImported := 0, documentsWithErrors := 0,
         logsImported := 0, localPath := "",
         errors := ["Aucun document valide trouvé dans le fichier JSON"] }, [p1])
    else
      let len := ex.documents.length
      let p2 : HProgress :=
        ⟨.directory, "Création de la structure de répertoires...", 20, 0, len, [],
         v.warnings.map Finding.message⟩
      let localPath := "/Rep_misania/" ++ sanitizeName sourceName
      let p3 : HProgress := ⟨.downloading, "Téléchargement des documents...", 30, 0, len, [], []⟩
      let loop := hDocsLoop o len ex.documents 0
      let successCount := loop.1
      let errorCount := loop.2.1
      let p4 : HProgress := ⟨.saving, "Sauvegarde des métadonnées...", 85, len, len, [], []⟩
      match o.createResult with
      | .error m =>
        let pe : HProgress := ⟨.error, "Erreur lors de l\x27importation: " ++ m, 0, 0, 0, [m], []⟩
        ({ success := false, documentsImported := successCount,
           documentsWithErrors := errorCount, logsImported := 0,
           localPath := localPath, errors := [m] },
         [p1, p2, p3] ++ loop.2.2 ++ [p4, pe])
      | .ok _ =>
        let logsImported := hLogsLoop o ex.logs 0
        let p5 : HProgress :=
          ⟨.completed, "Importation terminée: " ++ toString successCount ++ " documents importés",
           100, len, len, [], []⟩
        ({ success := true, documentsImported := successCount,
           documentsWithErrors := errorCount, logsImported := logsImported,
           localPath := localPath, errors := [] },
         [p1, p2, p3] ++ loop.2.2 ++ [p4, p5])

def allOkH : HOracles := ⟨fun _ => .ok, .ok (), fun _ => .ok (), .ok (), .ok ()⟩

/-! ## Idempotency Checker (`HarvestDataImporter.checkIfAlreadyImported`) -/

/-- `HarvestDataImporter.checkIfAlreadyImported`: `lookup` is the outcome of
`HarvestResultService.getAllResults(100)`; any lookup failure yields
`false`. -/
def checkIfAlreadyImported (lookup : Except String (List JsVal)) (hid : String) : Bool :=
  match lookup with
  | .error _ => false
  | .ok results =>
    results.any fun r => totGet (totGet r "metadata") "original_harvest_id" == .str hid


/-! ## Concrete inputs used by the claim theorems -/

def c6doc : JsVal :=
  .obj [("url_doc", .str "https://example.com/a.pdf"), ("document_name", .num 5)]

def emptyBatchData : JsVal := .obj [("documents", .arr [])]

def c1cexData : JsVal :=
  .obj [("documents", .arr [.obj [("url_doc", .str " ")],
                            .obj [("url_doc", .str "not-a-url")]])]

def c2cexDocs : List JsVal :=
  [.obj [("url_doc", .str "https://a.b/c")],
   .obj [("url_doc", .str "https://a.b/c"), ("document_name", .str "dup")],
   .obj [("url_doc", .num 5)]]

def c2cexData : JsVal := .obj [("documents", .arr c2cexDocs)]

def c8cexData : JsVal := .obj [("logs", .arr [.obj []])]

def c5cexData : JsVal :=
  .obj [("documents", .arr [.obj [("url_doc", .str "https://ex.com/ok.pdf")],
                            .obj [("url_doc", .str "not-a-url")]])]

/-! ## Claim theorems (part 1: directly decidable facts) -/

/-- C6 (code bug): the Field Validator contract says `validateDocument`
never throws, but on a document with a valid `url_doc` and a truthy
non-string `document_name` the unguarded `doc.document_name.trim()` call
raises a `TypeError` that escapes `validateDocument`. -/
theorem validateDocument_throws_on_nonstring_name :
    (validateDocument c6doc 0 2026).thrown = some "doc.document_name.trim is not a function" := by
  decide

/-- C9: if the persistence lookup behind `checkIfAlreadyImported` throws,
the function returns `false` instead of propagating the exception. -/
theorem checkIfAlreadyImported_failure_safe :
    ∀ (lookup : Except String (List JsVal)) (hid m : String),
      lookup = .error m → checkIfAlreadyImported lookup hid = false := by
  intro lookup hid m h
  subst h
  rfl

theorem checkIfAlreadyImported_failure_safe_witness :
    (Except.error "db down" : Except String (List JsVal)) = .error "db down"
      ∧ checkIfAlreadyImported (.error "db down") "batch-1" = false :=
  ⟨rfl, checkIfAlreadyImported_failure_safe (.error "db down") "batch-1" "db down" rfl⟩

/-- C7: `extractValidData` never propagates an exception: for every parse
outcome it either returns the successfully computed extraction of the
`try` block, or — on a parse failure or any exception inside the block —
the all-empty result. -/
theorem extractValidData_never_throws :
    ∀ (p : Except String JsVal) (now : String) (year : Int),
      (∃ d r, p = .ok d ∧ extractBody d now year = .ok r ∧ extractValidData p now year = r)
        ∨ extractValidData p now year = emptyExtract := by
  intro p now year
  cases p with
  | error m => exact Or.inr rfl
  | ok d =>
    cases h : extractBody d now year with
    | ok r => exact Or.inl ⟨d, r, rfl, h, by simp [extractValidData, h]⟩
    | error m => exact Or.inr (by simp [extractValidData, h])

/-- C4 (counterexample): on `\x7b"documents":[]\x7d` the import does not
complete with `success=true`; it aborts with `success=false` and never
reaches the `completed` phase. -/
theorem empty_batch_import_cex :
    (importHarvestResults (.ok emptyBatchData) "Site" "T" 2026 allOkH).1.success = false
      ∧ (((importHarvestResults (.ok emptyBatchData) "Site" "T" 2026 allOkH).2.map
          HProgress.phase).contains .completed) = false := by
  decide

/-- C4 (amended): `\x7b"documents":[]\x7d` validates with `isValid=true` and a
warning about the empty array, but the import path then aborts: zero
documents are extracted, the batch-level error
"Aucun document valide trouvé dans le fichier JSON" is recorded, and the
result has `documentsImported=0` and `success=false` (only the
`validation` phase is ever notified). -/
theorem empty_batch_validation_and_abort :
    (validateImportJson (.ok emptyBatchData) 2026).isValid = true
      ∧ ((validateImportJson (.ok emptyBatchData) 2026).warnings.map Finding.field)
          = ["documents", "logs"]
      ∧ ((validateImportJson (.ok emptyBatchData) 2026).warnings.head?.map Finding.message)
          = some "Tableau \"documents\" vide : aucun document ne sera importé"
      ∧ (importHarvestResults (.ok emptyBatchData) "Site" "T" 2026 allOkH).1
          = { success := false, documentsImported := 0, documentsWithErrors := 0,
              logsImported := 0, localPath := "",
              errors := ["Aucun document valide trouvé dans le fichier JSON"] }
      ∧ ((importHarvestResults (.ok emptyBatchData) "Site" "T" 2026 allOkH).2.map HProgress.phase)
          = [.validation] := by
  decide

/-- C1 (counterexample): `extractValidData` performs no URL parsing and does
not re-trim: a document whose `url_doc` is blank after trimming and one
whose `url_doc` fails URL parsing both appear in the returned
`documents`. -/
theorem extract_keeps_unparseable_url_cex :
    jsTrim " " = ""
      ∧ urlParses "not-a-url" = false
      ∧ ((extractValidData (.ok c1cexData) "T" 2026).documents.map fun o => totGet o "url_doc")
          = [.str " ", .str "not-a-url"] := by
  decide

/-- C2 (counterexample): with two entries sharing the trimmed
`url_doc` "https://a.b/c" and a third entry whose `url_doc` is a truthy
non-string, the `.trim()` call inside the deduplication filter throws, the
`catch` returns the all-empty result, and *neither* of the two duplicates
appears in the output. -/
theorem extract_dedup_poisoned_cex :
    ((c2cexDocs.filter fun d => totGet d "url_doc" == .str "https://a.b/c").length = 2)
      ∧ (extractValidData (.ok c2cexData) "T" 2026).documents = [] := by
  decide

/-- C8 (counterexample): `extractValidData` reads the ambient clock to
default a missing log `timestamp`; two calls on the same text that observe
different clock readings return results that are not deep-equal. -/
theorem extract_clock_dependent_cex :
    extractValidData (.ok c8cexData) "2026-01-01T00:00:00.000Z" 2026
      ≠ extractValidData (.ok c8cexData) "2026-01-01T00:00:01.000Z" 2026 := by
  decide

/-- C5 (counterexample): one entry with a URL-unparseable `url_doc` string
makes `validateParsedData` report an error and aborts the whole batch: the
other, fully valid document is not imported. -/
theorem invalid_url_fails_batch_cex :
    (importHarvestData c5cexData 2026 allOkOracles).1.success = false
      ∧ (importHarvestData c5cexData 2026 allOkOracles).1.documentsImported = 0
      ∧ (importHarvestData c5cexData 2026 allOkOracles).1.errors
          = ["Document 2: URL invalide (not-a-url)"]
      ∧ ((importHarvestData c5cexData 2026 allOkOracles).2.map IProgress.phase)
          = [.parsing, .error] := by
  decide

/-! ## Lemmas about the deduplicating filter -/

theorem dedupE_subset :
    ∀ (l : List JsVal) (seen : List String) (ks : List JsVal),
      dedupE l seen = .ok ks → ∀ x ∈ ks, x ∈ l := by
  intro l
  induction l with
  | nil =>
    intro seen ks h x hx
    simp only [dedupE, Except.ok.injEq] at h
    subst h
    simp at hx
  | cons d rest ih =>
    intro seen ks h x hx
    simp only [dedupE] at h
    cases ht : jsTrimE "doc.url_doc" (totGet d "url_doc") with
    | error m => rw [ht] at h; cases h
    | ok u =>
      rw [ht] at h
      by_cases hc : seen.contains u
      · simp only [hc, if_true] at h
        exact List.mem_cons_of_mem d (ih seen ks h x hx)
      · simp only [hc, if_false] at h
        cases hr : dedupE rest (u :: seen) with
        | error m => rw [hr] at h; cases h
        | ok ks2 =>
          rw [hr] at h
          cases h
          rcases List.mem_cons.mp hx with hx | hx
          · exact hx ▸ List.mem_cons_self d rest
          · exact List.mem_cons_of_mem d (ih (u :: seen) ks2 hr x hx)

theorem dedupE_poison :
    ∀ (l : List JsVal) (seen : List String),
      (∃ d ∈ l, ∀ s, totGet d "url_doc" ≠ .str s) →
      ∃ m, dedupE l seen = .error m := by
  intro l
  induction l with
  | nil =>
    intro seen h
    rcases h with ⟨d, hd, _⟩
    simp at hd
  | cons e rest ih =>
    intro seen h
    rcases h with ⟨d, hd, hns⟩
    simp only [dedupE]
    cases ht : jsTrimE "doc.url_doc" (totGet e "url_doc") with
    | error m => exact ⟨m, rfl⟩
    | ok u =>
      have hdr : d ∈ rest := by
        rcases List.mem_cons.mp hd with rfl | hdr
        · exfalso
          cases hu : totGet d "url_doc" with
          | str s => exact hns s hu
          | null => rw [hu] at ht; cases ht
          | undefined => rw [hu] at ht; cases ht
          | bool b => rw [hu] at ht; cases ht
          | num n => rw [hu] at ht; cases ht
          | arr xs => rw [hu] at ht; cases ht
          | obj fs => rw [hu] at ht; cases ht
        · exact hdr
      by_cases hc : seen.contains u
      · simp only [hc, if_true]
        exact ih seen ⟨d, hdr, hns⟩
      · rcases ih (u :: seen) ⟨d, hdr, hns⟩ with ⟨m, hm⟩
        refine ⟨m, ?_⟩
        simp only [hm, if_neg hc]

/-- C1 (amended): every document returned by `extractValidData` is the
normalization of an input entry that is an object with a *truthy*
`url_doc` — so entries with a missing or otherwise falsy `url_doc`, and
non-object entries, never appear; and when some entry is an object with a
truthy non-string `url_doc`, the `.trim()` throw empties the whole result,
so those never appear either. -/
theorem extract_excludes_missing_url :
    ∀ (fields : List (String × JsVal)) (docs : List JsVal) (now : String) (year : Int),
      totGet (.obj fields) "documents" = .arr docs →
      ((∀ o ∈ (extractValidData (.ok (.obj fields)) now year).documents,
          ∃ e ∈ docs, eligibleDoc e = true ∧ o = normalizeDoc year e)
        ∧ ((∃ d ∈ docs, eligibleDoc d = true ∧ ∀ s, totGet d "url_doc" ≠ .str s) →
            extractValidData (.ok (.obj fields)) now year = emptyExtract)) := by
  intro fields docs now year hdocs
  constructor
  · intro o ho
    simp only [extractValidData, extractBody, docsSection, jsGet, hdocs] at ho
    cases hd : dedupE (docs.filter eligibleDoc) [] with
    | error m =>
      rw [hd] at ho
      simp [emptyExtract] at ho
    | ok kept =>
      rw [hd] at ho
      simp only [ExtractResult.documents] at ho
      rcases List.mem_map.mp ho with ⟨e, he, rfl⟩
      have hsub := dedupE_subset _ _ _ hd e he
      have hel := List.mem_filter.mp hsub
      exact ⟨e, hel.1, hel.2, rfl⟩
  · intro hpoison
    rcases hpoison with ⟨d, hd, hel, hns⟩
    have : ∃ m, dedupE (docs.filter eligibleDoc) [] = .error m :=
      dedupE_poison _ _ ⟨d, List.mem_filter.mpr ⟨hd, hel⟩, hns⟩
    rcases this with ⟨m, hm⟩
    simp [extractValidData, extractBody, docsSection, jsGet, hdocs, hm]

def c1wdocs : List JsVal :=
  [.obj [("url_doc", .str "https://w.x/a.pdf")],
   .obj [("document_name", .str "no url at all")]]

theorem extract_excludes_missing_url_witness :
    totGet (.obj [("documents", .arr c1wdocs)]) "documents" = .arr c1wdocs
      ∧ (∃ e ∈ c1wdocs, eligibleDoc e = true
          ∧ normalizeDoc 2026 (.obj [("url_doc", .str "https://w.x/a.pdf")]) = normalizeDoc 2026 e) :=
  ⟨by decide,
   (extract_excludes_missing_url [("documents", .arr c1wdocs)] c1wdocs "T" 2026 (by decide)).1
     (normalizeDoc 2026 (.obj [("url_doc", .str "https://w.x/a.pdf")])) (by decide)⟩

theorem trimUrl_normalize (year : Int) (d : JsVal) :
    trimUrl (normalizeDoc year d) = trimUrl d := rfl

theorem dedupE_eq_dedupP :
    ∀ (l : List JsVal) (seen : List String),
      (∀ d ∈ l, ∃ s, totGet d "url_doc" = .str s) →
      dedupE l seen = .ok (dedupP l seen) := by
  intro l
  induction l with
  | nil => intro seen _; rfl
  | cons d rest ih =>
    intro seen h
    rcases h d (List.mem_cons_self d rest) with ⟨s, hs⟩
    have hrest : ∀ e ∈ rest, ∃ s, totGet e "url_doc" = .str s :=
      fun e he => h e (List.mem_cons_of_mem d he)
    have htrim : jsTrimE "doc.url_doc" (totGet d "url_doc") = .ok (jsTrim s) := by
      rw [hs]; rfl
    have hturl : trimUrl d = jsTrim s := by
      simp [trimUrl, hs]
    simp only [dedupE, dedupP, htrim, hturl]
    by_cases hc : seen.contains (jsTrim s)
    · simp only [if_pos hc]
      exact ih seen hrest
    · simp only [if_neg hc]
      rw [ih (jsTrim s :: seen) hrest]

theorem dedupP_sublist : ∀ (l : List JsVal) (seen : List String), (dedupP l seen).Sublist l := by
  intro l
  induction l with
  | nil => intro seen; exact List.Sublist.refl []
  | cons d rest ih =>
    intro seen
    simp only [dedupP]
    by_cases hc : seen.contains (trimUrl d)
    · simp only [if_pos hc]
      exact (ih seen).cons d
    · simp only [if_neg hc]
      exact (ih (trimUrl d :: seen)).cons₂ d

theorem dedupP_urls :
    ∀ (l : List JsVal) (seen : List String),
      ((dedupP l seen).map trimUrl).Nodup
        ∧ ∀ u ∈ (dedupP l seen).map trimUrl, seen.contains u = false := by
  intro l
  induction l with
  | nil =>
    intro seen
    exact ⟨List.nodup_nil, by intro u hu; simp [dedupP] at hu⟩
  | cons d rest ih =>
    intro seen
    simp only [dedupP]
    by_cases hc : seen.contains (trimUrl d)
    · simp only [if_pos hc]
      exact ih seen
    · simp only [if_neg hc]
      obtain ⟨hnd, hfresh⟩ := ih (trimUrl d :: seen)
      constructor
      · simp only [List.map_cons, List.nodup_cons]
        refine ⟨fun hmem => ?_, hnd⟩
        have hff := hfresh _ hmem
        have : ((trimUrl d :: seen).contains (trimUrl d)) = true := by
          show ((trimUrl d == trimUrl d) || seen.contains (trimUrl d)) = true
          simp
        rw [hff] at this
        cases this
      · intro u hu
        simp only [List.map_cons, List.mem_cons] at hu
        rcases hu with rfl | hu
        · exact Bool.not_eq_true _ ▸ (by simpa using hc)
        · have hff := hfresh u hu
          have : ((u == trimUrl d) || seen.contains u) = false := hff
          exact (Bool.or_eq_false_iff.mp this).2

theorem dedupP_filter_first :
    ∀ (l : List JsVal) (seen : List String) (u : String) (e : JsVal),
      seen.contains u = false →
      l.find? (fun d => trimUrl d == u) = some e →
      (dedupP l seen).filter (fun d => trimUrl d == u) = [e] := by
  intro l
  induction l with
  | nil => intro seen u e _ hf; simp at hf
  | cons d rest ih =>
    intro seen u e hseen hf
    simp only [dedupP]
    by_cases hdu : (trimUrl d == u) = true
    · have he : e = d := by
        rw [List.find?_cons_of_pos rest hdu] at hf
        exact (Option.some.injEq _ _ ▸ hf.symm)
      subst he
      have hequ : trimUrl e = u := eq_of_beq hdu
      have hcnot : seen.contains (trimUrl e) = false := hequ ▸ hseen
      simp only [if_neg (by rw [hcnot]; simp : ¬seen.contains (trimUrl e) = true)]
      rw [List.filter_cons, if_pos (by rw [hdu])]
      have htail : (dedupP rest (trimUrl e :: seen)).filter (fun x => trimUrl x == u) = [] := by
        apply List.filter_eq_nil_iff.mpr
        intro x hx
        have hfx := (dedupP_urls rest (trimUrl e :: seen)).2 (trimUrl x)
          (List.mem_map_of_mem trimUrl hx)
        have : ((trimUrl x == trimUrl e) || seen.contains (trimUrl x)) = false := hfx
        have hne : (trimUrl x == trimUrl e) = false := (Bool.or_eq_false_iff.mp this).1
        rw [hequ] at hne
        simp [hne]
      rw [htail]
    · have hdufalse : (trimUrl d == u) = false := by
        cases hb : (trimUrl d == u) with
        | true => exact absurd hb hdu
        | false => rfl
      have hf' : rest.find? (fun x => trimUrl x == u) = some e := by
        rw [List.find?_cons_of_neg rest (by simp [hdufalse])] at hf
        exact hf
      by_cases hc : seen.contains (trimUrl d)
      · simp only [if_pos hc]
        exact ih seen u e hseen hf'
      · simp only [if_neg hc]
        rw [List.filter_cons, if_neg (by simp [hdufalse])]
        refine ih (trimUrl d :: seen) u e ?_ hf'
        show ((u == trimUrl d) || seen.contains u) = false
        have hne : u ≠ trimUrl d := fun h => by
          rw [h] at hdufalse
          simp at hdufalse
        rw [beq_eq_false_iff_ne.mpr hne, hseen]
        rfl

/-- C2 (amended): when every eligible entry's `url_doc` is a string (so the
dedup filter cannot throw), `extractValidData` keeps exactly one entry per
trimmed `url_doc` — the first eligible occurrence in array order — the
output documents have pairwise-distinct trimmed URLs, and the kept entries
preserve input order (the output is the normalization of a sublist of the
eligible entries). -/
theorem extract_dedup_first_occurrence :
    ∀ (fields : List (String × JsVal)) (docs : List JsVal) (now : String) (year : Int),
      totGet (.obj fields) "documents" = .arr docs →
      (∀ d ∈ docs, eligibleDoc d = true → ∃ s, totGet d "url_doc" = .str s) →
      (((extractValidData (.ok (.obj fields)) now year).documents.map trimUrl).Nodup
        ∧ (∃ kept, List.Sublist kept (docs.filter eligibleDoc)
            ∧ (extractValidData (.ok (.obj fields)) now year).documents
                = kept.map (normalizeDoc year))
        ∧ (∀ (u : String) (e : JsVal),
            (docs.filter eligibleDoc).find? (fun d => trimUrl d == u) = some e →
            (extractValidData (.ok (.obj fields)) now year).documents.filter
                (fun o => trimUrl o == u) = [normalizeDoc year e])) := by
  intro fields docs now year hdocs hsafe
  have hsafe2 : ∀ d ∈ docs.filter eligibleDoc, ∃ s, totGet d "url_doc" = .str s := by
    intro d hd
    have hm := List.mem_filter.mp hd
    exact hsafe d hm.1 hm.2
  have hded := dedupE_eq_dedupP (docs.filter eligibleDoc) [] hsafe2
  have hout : (extractValidData (.ok (.obj fields)) now year).documents
      = (dedupP (docs.filter eligibleDoc) []).map (normalizeDoc year) := by
    simp [extractValidData, extractBody, docsSection, jsGet, hdocs, hded]
  refine ⟨?_, ⟨dedupP (docs.filter eligibleDoc) [], dedupP_sublist _ _, hout⟩, ?_⟩
  · rw [hout, List.map_map]
    have hcong : (dedupP (docs.filter eligibleDoc) []).map (trimUrl ∘ normalizeDoc year)
        = (dedupP (docs.filter eligibleDoc) []).map trimUrl :=
      List.map_congr_left (fun d _ => trimUrl_normalize year d)
    rw [hcong]
    exact (dedupP_urls _ _).1
  · intro u e hfind
    rw [hout, List.filter_map]
    have hcomp : ((fun o => trimUrl o == u) ∘ normalizeDoc year) = fun d => trimUrl d == u := by
      funext d
      simp [Function.comp, trimUrl_normalize]
    rw [hcomp, dedupP_filter_first _ [] u e rfl hfind]
    rfl

def c2wdocs : List JsVal :=
  [.obj [("url_doc", .str "https://w.x/y")],
   .obj [("url_doc", .str " https://w.x/y "), ("document_name", .str "dup")],
   .obj [("url_doc", .str "https://w.x/z")]]

theorem extract_dedup_first_occurrence_witness :
    totGet (.obj [("documents", .arr c2wdocs)]) "documents" = .arr c2wdocs
      ∧ (c2wdocs.filter eligibleDoc).find?
          (fun d => trimUrl d == "https://w.x/y") = some (.obj [("url_doc", .str "https://w.x/y")])
      ∧ (extractValidData (.ok (.obj [("documents", .arr c2wdocs)])) "T" 2026).documents.filter
          (fun o => trimUrl o == "https://w.x/y")
          = [normalizeDoc 2026 (.obj [("url_doc", .str "https://w.x/y")])] := by
  refine ⟨by decide, by decide, ?_⟩
  refine (extract_dedup_first_occurrence [("documents", .arr c2wdocs)] c2wdocs "T" 2026
    (by decide) ?_).2.2 "https://w.x/y" (.obj [("url_doc", .str "https://w.x/y")]) (by decide)
  intro d hd _
  simp only [c2wdocs, List.mem_cons, List.not_mem_nil, or_false] at hd
  rcases hd with rfl | rfl | rfl
  · exact ⟨"https://w.x/y", by decide⟩
  · exact ⟨" https://w.x/y ", by decide⟩
  · exact ⟨"https://w.x/z", by decide⟩

theorem normalizeDoc_clock_free (d : JsVal) (year1 year2 : Int)
    (h : truthy (totGet d "annee") = true) :
    normalizeDoc year1 d = normalizeDoc year2 d := by
  simp [normalizeDoc, jsOr, h]

theorem normalizeLog_clock_free (lg : JsVal) (now1 now2 : String)
    (h : truthy (totGet lg "timestamp") = true) :
    normalizeLog now1 lg = normalizeLog now2 lg := by
  simp [normalizeLog, jsOr, h]

theorem docsSection_clock_free (docsV : JsVal) (year1 year2 : Int)
    (h : ∀ docs, docsV = .arr docs → ∀ d ∈ docs, eligibleDoc d = true →
      truthy (totGet d "annee") = true) :
    docsSection docsV year1 = docsSection docsV year2 := by
  cases docsV with
  | arr docs =>
    simp only [docsSection]
    cases hd : dedupE (docs.filter eligibleDoc) [] with
    | error m => rfl
    | ok kept =>
      have : kept.map (normalizeDoc year1) = kept.map (normalizeDoc year2) := by
        apply List.map_congr_left
        intro e he
        have hsub := dedupE_subset _ _ _ hd e he
        have hm := List.mem_filter.mp hsub
        exact normalizeDoc_clock_free e year1 year2 (h docs rfl e hm.1 hm.2)
      simp [this]
  | null => rfl
  | undefined => rfl
  | bool b => rfl
  | num n => rfl
  | str s => rfl
  | obj fs => rfl

theorem logsSection_clock_free (logsV : JsVal) (now1 now2 : String)
    (h : ∀ ls, logsV = .arr ls → ∀ l ∈ ls, (truthy l && isObjectTypeof l) = true →
      truthy (totGet l "timestamp") = true) :
    logsSection logsV now1 = logsSection logsV now2 := by
  cases logsV with
  | arr ls =>
    simp only [logsSection]
    apply List.map_congr_left
    intro l hl
    have hm := List.mem_filter.mp hl
    exact normalizeLog_clock_free l now1 now2 (h ls rfl l hm.1 hm.2)
  | null => rfl
  | undefined => rfl
  | bool b => rfl
  | num n => rfl
  | str s => rfl
  | obj fs => rfl

/-- C8 (amended): `extractValidData` has no hidden mutable state — its result
depends only on the parsed text and the two clock readings — and whenever
every eligible document entry carries a truthy `annee` and every object log
entry a truthy `timestamp`, the clock defaults are never consulted and the
result is identical across different clock readings. -/
theorem extract_deterministic_given_clock :
    ∀ (data : JsVal) (now1 now2 : String) (year1 year2 : Int),
      (∀ docs, totGet data "documents" = .arr docs →
        ∀ d ∈ docs, eligibleDoc d = true → truthy (totGet d "annee") = true) →
      (∀ ls, totGet data "logs" = .arr ls →
        ∀ l ∈ ls, (truthy l && isObjectTypeof l) = true →
          truthy (totGet l "timestamp") = true) →
      extractValidData (.ok data) now1 year1 = extractValidData (.ok data) now2 year2 := by
  intro data now1 now2 year1 year2 h1 h2
  cases data with
  | null => rfl
  | undefined => rfl
  | bool b => rfl
  | num n => rfl
  | str s => rfl
  | arr xs =>
    simp only [extractValidData, extractBody, jsGet]
    rw [docsSection_clock_free _ year1 year2 h1, logsSection_clock_free _ now1 now2 h2]
  | obj fs =>
    simp only [extractValidData, extractBody, jsGet]
    rw [docsSection_clock_free _ year1 year2 h1, logsSection_clock_free _ now1 now2 h2]

def c8wdocs : List JsVal :=
  [.obj [("url_doc", .str "https://w.x/a.pdf"), ("annee", .num 2020)]]

def c8wlogs : List JsVal :=
  [.obj [("timestamp", .str "2026-01-01T00:00:00Z"), ("message", .str "ok")]]

def c8wdata : JsVal := .obj [("documents", .arr c8wdocs), ("logs", .arr c8wlogs)]

theorem extract_deterministic_given_clock_witness :
    extractValidData (.ok c8wdata) "2026-01-01T00:00:00.000Z" 2025
      = extractValidData (.ok c8wdata) "2026-02-02T09:09:09.000Z" 2026 := by
  apply extract_deterministic_given_clock
  · intro docs hdv
    have h2 : JsVal.arr c8wdocs = JsVal.arr docs := hdv
    cases h2
    intro d
    revert d
    decide
  · intro ls hlv
    have h2 : JsVal.arr c8wlogs = JsVal.arr ls := hlv
    cases h2
    intro l
    revert l
    decide

/-- C3: every orchestrator run that reaches the `completed` phase returns
`success = (errors.length === 0 OR documentsImported > 0)`; and in the
3-document scenario where only the second persistence call fails, the run
returns `documentsImported = 2`, one error, `success = true`, and notifies
the phases `parsing, documents ×3, site_update, logs, completed` in
order. -/
theorem importHarvestData_success_rule :
    (∀ (d : JsVal) (year : Int) (o : ImportOracles),
        (∃ p ∈ (importHarvestData d year o).2, p.phase = IPhase.completed) →
        (importHarvestData d year o).1.success
          = ((importHarvestData d year o).1.errors.isEmpty
              || decide (0 < (importHarvestData d year o).1.documentsImported)))
      ∧ ((importHarvestData scenarioData 2026 scenarioOracles).1.documentsImported = 2
          ∧ (importHarvestData scenarioData 2026 scenarioOracles).1.errors.length = 1
          ∧ (importHarvestData scenarioData 2026 scenarioOracles).1.success = true
          ∧ ((importHarvestData scenarioData 2026 scenarioOracles).2.map IProgress.phase)
              = [.parsing, .documents, .documents, .documents, .site_update, .logs, .completed]) := by
  constructor
  · intro d year o h
    rcases hp : parseOpenAIResponse d year with ⟨succ, dat, err, warns⟩
    cases dat with
    | none =>
      simp only [importHarvestData, hp] at h ⊢
      simp at h
    | some pd =>
      cases succ with
      | false =>
        simp only [importHarvestData, hp] at h ⊢
        simp at h
      | true =>
        cases hv : (validateParsedData pd).isValid with
        | false =>
          simp only [importHarvestData, hp, hv] at h
          simp at h
        | true =>
          simp only [importHarvestData, hp, hv]
          rfl
  · exact ⟨by decide, by decide, by decide, by decide⟩

theorem importHarvestData_success_rule_witness :
    (∃ p ∈ (importHarvestData scenarioData 2026 scenarioOracles).2,
        p.phase = IPhase.completed)
      ∧ (importHarvestData scenarioData 2026 scenarioOracles).1.success
          = ((importHarvestData scenarioData 2026 scenarioOracles).1.errors.isEmpty
              || decide (0 < (importHarvestData scenarioData 2026 scenarioOracles).1.documentsImported)) :=
  ⟨by decide, importHarvestData_success_rule.1 scenarioData 2026 scenarioOracles (by decide)⟩

/-! ## Lemmas for the parser/orchestrator exclusion behaviour -/

/-- An entry survives `parseDocument`: it is a truthy object whose
`url_doc` is a string that is neither empty nor blank after trimming. -/
def usableUrl (d : JsVal) : Bool :=
  truthy d && isObjectTypeof d &&
  (match totGet d "url_doc" with
   | .str s => !(s == "") && !(jsTrim s == "")
   | _ => false)

def docStrOf (d : JsVal) : String :=
  match totGet d "url_doc" with
  | .str s => s
  | _ => ""

theorem parseDocsLoop_eq :
    ∀ (docs : List JsVal) (i : Nat) (year : Int),
      (parseDocsLoop year docs i).1
        = (docs.filter usableUrl).map (fun d => parsedOf d year (docStrOf d)) := by
  intro docs
  induction docs with
  | nil => intro i year; rfl
  | cons d ds ih =>
    intro i year
    simp only [parseDocsLoop, List.filter_cons]
    by_cases h1 : (truthy d && isObjectTypeof d) = true
    · cases hu : totGet d "url_doc" with
      | str s =>
        by_cases hs0 : (s == "") = true
        · have hpd : parseDocument d year = .ok none := by
            simp [parseDocument, h1, hu, hs0]
          have husable : usableUrl d = false := by
            simp [usableUrl, h1, hu, hs0]
          simp [hpd, husable, ih]
        · by_cases hst : (jsTrim s == "") = true
          · have hpd : parseDocument d year = .ok none := by
              simp only [parseDocument, h1]
              simp [hu, hs0, hst]
            have husable : usableUrl d = false := by
              simp [usableUrl, h1, hu, hs0, hst]
            simp [hpd, husable, ih]
          · have hpd : parseDocument d year = .ok (some (parsedOf d year s)) := by
              simp only [parseDocument, h1]
              simp [hu, hs0, hst]
            have husable : usableUrl d = true := by
              simp [usableUrl, h1, hu, hs0, hst]
            have hstr : docStrOf d = s := by simp [docStrOf, hu]
            simp [hpd, husable, ih, hstr]
      | null => simp [parseDocument, h1, hu, usableUrl, ih]
      | undefined => simp [parseDocument, h1, hu, usableUrl, ih]
      | bool b => simp [parseDocument, h1, hu, usableUrl, ih]
      | num n => simp [parseDocument, h1, hu, usableUrl, ih]
      | arr xs => simp [parseDocument, h1, hu, usableUrl, ih]
      | obj fs => simp [parseDocument, h1, hu, usableUrl, ih]
    · have hb : (truthy d && isObjectTypeof d) = false := by
        cases hx : (truthy d && isObjectTypeof d) with
        | true => exact absurd hx h1
        | false => rfl
      have hpd : parseDocument d year = .error "Document invalide" := by
        simp [parseDocument, hb]
      have husable : usableUrl d = false := by
        simp [usableUrl, hb]
      simp [hpd, husable, ih]

theorem urlParses_ne_empty :
    ∀ s, urlParses s = true → (s == "") = false ∧ (jsTrim s == "") = false := by
  intro s h
  constructor
  · cases hb : s == "" with
    | false => rfl
    | true =>
      have hs : s = "" := eq_of_beq hb
      rw [hs] at h
      exact absurd h (by decide)
  · cases hb : jsTrim s == "" with
    | false => rfl
    | true =>
      have hts : jsTrim s = "" := eq_of_beq hb
      simp only [urlParses, hts] at h
      exact absurd h (by decide)

theorem importDocsLoop_allok :
    ∀ (ds : List ParsedDocument) (i : Nat) (warns : List String) (len : Nat),
      (∀ p ∈ ds, urlParses p.url_doc = true) →
      (importDocsLoop allOkOracles warns len ds i).1 = ds.length
        ∧ (importDocsLoop allOkOracles warns len ds i).2.1 = [] := by
  intro ds
  induction ds with
  | nil => intro i warns len _; exact ⟨rfl, rfl⟩
  | cons d rest ih =>
    intro i warns len h
    have hu := h d (List.mem_cons_self d rest)
    obtain ⟨h1, h2⟩ := urlParses_ne_empty d.url_doc hu
    have hrest : ∀ p ∈ rest, urlParses p.url_doc = true :=
      fun p hp => h p (List.mem_cons_of_mem d hp)
    obtain ⟨ihl, ihe⟩ := ih (i + 1) warns len hrest
    have ho : allOkOracles.docPersist i = .ok () := rfl
    simp [importDocsLoop, h1, h2, ho, ihl, ihe]

theorem validateParsedData_ok :
    ∀ (pd : ParsedHarvestData), pd.documents ≠ [] →
      (∀ p ∈ pd.documents, urlParses p.url_doc = true) →
      validateParsedData pd = ⟨true, []⟩ := by
  intro pd hne hurl
  have he1 : pd.documents.isEmpty = false := by
    cases hd : pd.documents with
    | nil => exact absurd hd hne
    | cons a l => rfl
  have he2 : (pd.documents.enum.filterMap fun ip =>
      if urlParses ip.2.url_doc then none
      else some ("Document " ++ toString (ip.1 + 1) ++ ": URL invalide (" ++ ip.2.url_doc ++ ")"))
      = [] := by
    apply List.filterMap_eq_nil_iff.mpr
    intro ip hip
    have hmem : ip.2 ∈ pd.documents := by
      rcases ip with ⟨j, p⟩
      exact List.getElem?_mem (List.mem_enum_iff_getElem?.mp hip)
    rw [if_pos (hurl ip.2 hmem)]
  simp [validateParsedData, he1, he2]

/-- C5 (amended): entries whose `url_doc` is missing (absent, non-string, or
blank) are excluded by the parser and are fatal to that entry only — the
parsed batch consists of exactly the entries with a usable `url_doc`, and
when at least one document survives and every surviving `url_doc` parses as
a URL, the orchestrator (with succeeding persistence) imports all of them
with no errors and `success = true`. -/
theorem missing_url_entry_only_fatal :
    ∀ (fields : List (String × JsVal)) (docs : List JsVal) (year : Int),
      totGet (.obj fields) "documents" = .arr docs →
      totGet (.obj fields) "logs" = .undefined →
      ∃ pd,
        parseOpenAIResponse (.obj fields) year
            = { success := true, data := some pd, error := none, warnings := [] }
          ∧ pd.documents = (docs.filter usableUrl).map (fun d => parsedOf d year (docStrOf d))
          ∧ (pd.documents ≠ [] → (∀ p ∈ pd.documents, urlParses p.url_doc = true) →
              ((importHarvestData (.obj fields) year allOkOracles).1.documentsImported
                  = pd.documents.length
                ∧ (importHarvestData (.obj fields) year allOkOracles).1.errors = []
                ∧ (importHarvestData (.obj fields) year allOkOracles).1.success = true)) := by
  intro fields docs year hdocs hlogs
  have hds : pDocsSection (totGet (.obj fields) "documents") year = parseDocsLoop year docs 0 := by
    rw [hdocs]; rfl
  have hls : pLogsSection (totGet (.obj fields) "logs") = .ok [] := by
    rw [hlogs]; rfl
  have hsd : parseStructuredData (.obj fields) year
      = { success := true,
          data := some ⟨(parseDocsLoop year docs 0).1,
            pObsSection (totGet (.obj fields) "obstacles-globaux"),
            pRecsSection (totGet (.obj fields) "recommandations"), []⟩,
          error := none,
          warnings := (parseDocsLoop year docs 0).2 } := by
    simp only [parseStructuredData, hds, hls]
  have hpr : parseOpenAIResponse (.obj fields) year
      = { success := true,
          data := some ⟨(parseDocsLoop year docs 0).1,
            pObsSection (totGet (.obj fields) "obstacles-globaux"),
            pRecsSection (totGet (.obj fields) "recommandations"), []⟩,
          error := none, warnings := [] } := by
    simp [parseOpenAIResponse, hsd, truthy, isObjectTypeof]
  refine ⟨⟨(parseDocsLoop year docs 0).1,
    pObsSection (totGet (.obj fields) "obstacles-globaux"),
    pRecsSection (totGet (.obj fields) "recommandations"), []⟩, hpr, ?_, ?_⟩
  · exact parseDocsLoop_eq docs 0 year
  · intro hne hurl
    have hvp := validateParsedData_ok _ hne hurl
    obtain ⟨hl1, hl2⟩ := importDocsLoop_allok (parseDocsLoop year docs 0).1 0 []
      (parseDocsLoop year docs 0).1.length hurl
    have hsu : allOkOracles.siteUpdate = .ok () := rfl
    simp only [importHarvestData, hpr, hvp]
    refine ⟨hl1, ?_, ?_⟩
    · simp [hl2, hsu]
    · simp [hl2, hsu]

def c5wdocs : List JsVal :=
  [.obj [("url_doc", .str "https://w.x/ok.pdf")],
   .obj [("document_name", .str "no url")]]

def c5wfields : List (String × JsVal) := [("documents", .arr c5wdocs)]

theorem missing_url_entry_only_fatal_witness :
    totGet (.obj c5wfields) "documents" = .arr c5wdocs
      ∧ totGet (.obj c5wfields) "logs" = .undefined
      ∧ (importHarvestData (.obj c5wfields) 2026 allOkOracles).1.documentsImported = 1
      ∧ (importHarvestData (.obj c5wfields) 2026 allOkOracles).1.errors = []
      ∧ (importHarvestData (.obj c5wfields) 2026 allOkOracles).1.success = true := by
  obtain ⟨pd, hpr, hpdocs, himp⟩ :=
    missing_url_entry_only_fatal c5wfields c5wdocs 2026 (by decide) (by decide)
  have hlen : pd.documents
      = [parsedOf (.obj [("url_doc", .str "https://w.x/ok.pdf")]) 2026 "https://w.x/ok.pdf"] := by
    rw [hpdocs]
    decide
  have h1 : pd.documents ≠ [] := by rw [hlen]; simp
  have h2 : ∀ p ∈ pd.documents, urlParses p.url_doc = true := by
    rw [hlen]
    decide
  obtain ⟨ha, hb, hc⟩ := himp h1 h2
  refine ⟨by decide, by decide, ?_, hb, hc⟩
  rw [ha, hlen]
  rfl

/-! ## Lemmas for the batch-validator throw behaviour -/

theorem mem_ite_singleton {c : Prop} [Decidable c] {x f : Finding}
    (h : f ∈ (if c then [x] else [])) : f = x := by
  split at h
  · simpa using h
  · simp at h

theorem validateDocument_thrown_index :
    ∀ (d : JsVal) (i j : Nat) (year : Int),
      (validateDocument d i year).thrown = (validateDocument d j year).thrown := by
  intro d i j year
  by_cases hg : (truthy d && isObjectTypeof d) = true
  · rcases hui : urlDocCheck d i ("Document " ++ toString (i + 1)) with ⟨v0i, ui⟩
    rcases huj : urlDocCheck d j ("Document " ++ toString (j + 1)) with ⟨v0j, uj⟩
    simp only [validateDocument, hg, hui, huj]
    cases h1 : softStrCheck (totGet d "document_name") with
    | none => simp
    | some w1 =>
      cases h2 : softStrCheck (totGet d "filename") with
      | none => simp
      | some w2 => simp
  · have hgf : (truthy d && isObjectTypeof d) = false := by
      cases hx : (truthy d && isObjectTypeof d) with
      | true => exact absurd hx hg
      | false => rfl
    simp [validateDocument, hgf]

theorem urlDocCheck_finding :
    ∀ (d : JsVal) (i : Nat) (p : String) (f : Finding),
      f ∈ (urlDocCheck d i p).2 → f.logIndex = none ∧ f.documentIndex = some i := by
  intro d i p f hf
  simp only [urlDocCheck] at hf
  split at hf
  · simp at hf
    subst hf
    exact ⟨rfl, rfl⟩
  · split at hf
    · split at hf
      · simp at hf
        subst hf
        exact ⟨rfl, rfl⟩
      · split at hf
        · simp at hf
          subst hf
          exact ⟨rfl, rfl⟩
        · simp at hf
    · simp at hf
      subst hf
      exact ⟨rfl, rfl⟩

theorem validateDocument_finding_idx :
    ∀ (d : JsVal) (i : Nat) (year : Int) (f : Finding),
      (f ∈ (validateDocument d i year).errs ∨ f ∈ (validateDocument d i year).warns) →
      f.logIndex = none ∧ f.documentIndex = some i := by
  intro d i year f hf
  by_cases hg : (truthy d && isObjectTypeof d) = true
  · rcases hui : urlDocCheck d i ("Document " ++ toString (i + 1)) with ⟨v0, us⟩
    simp only [validateDocument, hg, hui] at hf
    have husmem : ∀ g ∈ us, g.logIndex = none ∧ g.documentIndex = some i := by
      intro g hgmem
      exact urlDocCheck_finding d i _ g (by rw [hui]; exact hgmem)
    cases h1 : softStrCheck (totGet d "document_name") with
    | none =>
      simp only [h1] at hf
      rcases hf with hf | hf
      · exact husmem f hf
      · simp at hf
    | some w1 =>
      cases h2 : softStrCheck (totGet d "filename") with
      | none =>
        simp only [h1, h2] at hf
        rcases hf with hf | hf
        · exact husmem f hf
        · have := mem_ite_singleton hf
          subst this
          exact ⟨rfl, rfl⟩
      | some w2 =>
        simp only [h1, h2] at hf
        rcases hf with hf | hf
        · exact husmem f hf
        · rcases List.mem_append.mp hf with hf2 | hf2
          · rcases List.mem_append.mp hf2 with hf3 | hf3
            · rcases List.mem_append.mp hf3 with hf4 | hf4
              · have := mem_ite_singleton hf4
                subst this
                exact ⟨rfl, rfl⟩
              · have := mem_ite_singleton hf4
                subst this
                exact ⟨rfl, rfl⟩
            · have := mem_ite_singleton hf3
              subst this
              exact ⟨rfl, rfl⟩
          · have := mem_ite_singleton hf2
            subst this
            exact ⟨rfl, rfl⟩
  · have hgf : (truthy d && isObjectTypeof d) = false := by
      cases hx : (truthy d && isObjectTypeof d) with
      | true => exact absurd hx hg
      | false => rfl
    simp only [validateDocument, hgf] at hf
    rcases hf with hf | hf
    · simp at hf
      subst hf
      exact ⟨rfl, rfl⟩
    · simp at hf

theorem dupErrors_finding :
    ∀ (docs : List JsVal) (f : Finding),
      f ∈ dupErrorsOf docs → f.documentIndex = none ∧ f.logIndex = none := by
  intro docs f hf
  rcases List.mem_filterMap.mp hf with ⟨kv, _, heq⟩
  split at heq
  · cases heq
    exact ⟨rfl, rfl⟩
  · cases heq

theorem goDocs_throw :
    ∀ (year : Int) (dBad : JsVal) (post : List JsVal) (m : String) (pre : List JsVal) (i0 : Nat),
      (∀ d ∈ pre, ∀ i, (validateDocument d i year).thrown = none) →
      (validateDocument dBad 0 year).thrown = some m →
      ∃ E W V, goDocs year (pre ++ dBad :: post) i0 = (E, W, V, some m)
        ∧ (∀ f ∈ E, f.logIndex = none ∧ ∀ j, f.documentIndex = some j → j ≤ i0 + pre.length)
        ∧ (∀ f ∈ W, f.logIndex = none ∧ ∀ j, f.documentIndex = some j → j ≤ i0 + pre.length) := by
  intro year dBad post m pre
  induction pre with
  | nil =>
    intro i0 _ hbad
    have hth : (validateDocument dBad i0 year).thrown = some m := by
      rw [validateDocument_thrown_index dBad i0 0 year]
      exact hbad
    refine ⟨(validateDocument dBad i0 year).errs, (validateDocument dBad i0 year).warns, 0,
      by simp [goDocs, hth], ?_, ?_⟩
    · intro f hf
      obtain ⟨hl, hd⟩ := validateDocument_finding_idx dBad i0 year f (Or.inl hf)
      refine ⟨hl, fun j hj => ?_⟩
      rw [hd] at hj
      injection hj with hj
      omega
    · intro f hf
      obtain ⟨hl, hd⟩ := validateDocument_finding_idx dBad i0 year f (Or.inr hf)
      refine ⟨hl, fun j hj => ?_⟩
      rw [hd] at hj
      injection hj with hj
      omega
  | cons d pre ih =>
    intro i0 hpre hbad
    have hdn : (validateDocument d i0 year).thrown = none :=
      hpre d (List.mem_cons_self d pre) i0
    obtain ⟨E, W, V, hgo, hE, hW⟩ :=
      ih (i0 + 1) (fun e he i => hpre e (List.mem_cons_of_mem d he) i) hbad
    refine ⟨(validateDocument d i0 year).errs ++ E, (validateDocument d i0 year).warns ++ W,
      (if (validateDocument d i0 year).valid then 1 else 0) + V, ?_, ?_, ?_⟩
    · simp [goDocs, hdn, hgo]
    · intro f hf
      rcases List.mem_append.mp hf with hf | hf
      · obtain ⟨hl, hd⟩ := validateDocument_finding_idx d i0 year f (Or.inl hf)
        refine ⟨hl, fun j hj => ?_⟩
        rw [hd] at hj
        injection hj with hj
        simp [List.length_cons]
        omega
      · obtain ⟨hl, hb⟩ := hE f hf
        refine ⟨hl, fun j hj => ?_⟩
        have := hb j hj
        simp [List.length_cons]
        omega
    · intro f hf
      rcases List.mem_append.mp hf with hf | hf
      · obtain ⟨hl, hd⟩ := validateDocument_finding_idx d i0 year f (Or.inr hf)
        refine ⟨hl, fun j hj => ?_⟩
        rw [hd] at hj
        injection hj with hj
        simp [List.length_cons]
        omega
      · obtain ⟨hl, hb⟩ := hW f hf
        refine ⟨hl, fun j hj => ?_⟩
        have := hb j hj
        simp [List.length_cons]
        omega

/-- C10: on well-formed JSON whose documents array holds an entry with a
valid `url_doc` but a truthy non-string optional field that makes
`validateDocument` throw, `validateImportJson` still terminates normally
with `isValid = false`; the batch-fatal finding appended by the catch has
field `json`, and validation of all subsequent document and log entries is
skipped: no finding carries a document index beyond the throwing entry, no
finding carries a log index, and the log counts stay 0. -/
theorem nonstring_optional_field_json_error :
    ∀ (fields : List (String × JsVal)) (pre post : List JsVal) (dBad : JsVal)
      (year : Int) (m : String),
      totGet (.obj fields) "documents" = .arr (pre ++ dBad :: post) →
      (∀ d ∈ pre, ∀ i, (validateDocument d i year).thrown = none) →
      (validateDocument dBad 0 year).thrown = some m →
      ((validateImportJson (.ok (.obj fields)) year).isValid = false
        ∧ (validateImportJson (.ok (.obj fields)) year).errors ≠ []
        ∧ (validateImportJson (.ok (.obj fields)) year).errors.getLast? = some (jsonErrF m)
        ∧ (jsonErrF m).field = "json"
        ∧ (jsonErrF m).severity = .error
        ∧ (∀ f ∈ (validateImportJson (.ok (.obj fields)) year).errors,
            f.logIndex = none ∧ ∀ j, f.documentIndex = some j → j ≤ pre.length)
        ∧ (∀ f ∈ (validateImportJson (.ok (.obj fields)) year).warnings,
            f.logIndex = none ∧ ∀ j, f.documentIndex = some j → j ≤ pre.length)
        ∧ (validateImportJson (.ok (.obj fields)) year).summary.totalLogs = 0
        ∧ (validateImportJson (.ok (.obj fields)) year).summary.validLogs = 0) := by
  intro fields pre post dBad year m hdocs hpre hbad
  obtain ⟨E, W, V, hgo, hE, hW⟩ := goDocs_throw year dBad post m pre 0 hpre hbad
  have hred : validateImportJson (.ok (.obj fields)) year
      = { isValid := ((dupErrorsOf (pre ++ dBad :: post) ++ E) ++ [jsonErrF m]).isEmpty,
          errors := (dupErrorsOf (pre ++ dBad :: post) ++ E) ++ [jsonErrF m],
          warnings := (if (pre ++ dBad :: post).length == 0 then [emptyDocsWarn] else []) ++ W,
          summary := ⟨(pre ++ dBad :: post).length, V, 0, 0⟩ } := by
    simp only [validateImportJson, hdocs, hgo, truthy, isObjectTypeof]
    simp
  rw [hred]
  have hiv : ((dupErrorsOf (pre ++ dBad :: post) ++ E) ++ [jsonErrF m]).isEmpty = false := by
    cases dupErrorsOf (pre ++ dBad :: post) ++ E with
    | nil => rfl
    | cons a l => rfl
  refine ⟨hiv, ?_, List.getLast?_concat _, rfl, rfl, ?_, ?_, rfl, rfl⟩
  · intro hnil
    have := congrArg List.isEmpty hnil
    rw [hiv] at this
    simp at this
  · intro f hf
    rcases List.mem_append.mp hf with hf | hf
    · rcases List.mem_append.mp hf with hf | hf
      · obtain ⟨hdi, hli⟩ := dupErrors_finding _ f hf
        exact ⟨hli, fun j hj => by rw [hdi] at hj; cases hj⟩
      · obtain ⟨hli, hb⟩ := hE f hf
        exact ⟨hli, fun j hj => by simpa using hb j hj⟩
    · simp at hf
      subst hf
      exact ⟨rfl, fun j hj => by cases hj⟩
  · intro f hf
    rcases List.mem_append.mp hf with hf | hf
    · have := mem_ite_singleton hf
      subst this
      exact ⟨rfl, fun j hj => by cases hj⟩
    · obtain ⟨hli, hb⟩ := hW f hf
      exact ⟨hli, fun j hj => by simpa using hb j hj⟩

def c10wbad : JsVal :=
  .obj [("url_doc", .str "https://example.com/a.pdf"), ("document_name", .num 5)]

def c10wfields : List (String × JsVal) :=
  [("documents", .arr [c10wbad]), ("logs", .arr [.obj []])]

theorem nonstring_optional_field_json_error_witness :
    totGet (.obj c10wfields) "documents" = .arr ([] ++ c10wbad :: [])
      ∧ (validateDocument c10wbad 0 2026).thrown
          = some "doc.document_name.trim is not a function"
      ∧ (validateImportJson (.ok (.obj c10wfields)) 2026).isValid = false
      ∧ (validateImportJson (.ok (.obj c10wfields)) 2026).errors.getLast?
          = some (jsonErrF "doc.document_name.trim is not a function")
      ∧ (validateImportJson (.ok (.obj c10wfields)) 2026).summary.totalLogs = 0 := by
  have h := nonstring_optional_field_json_error c10wfields [] [] c10wbad 2026
    "doc.document_name.trim is not a function" (by decide) (by intro d hd i; simp at hd)
    (by decide)
  exact ⟨by decide, by decide, h.1, h.2.2.1, h.2.2.2.2.2.2.2.1⟩
